import Mathlib

/-!
Verification of the schema-and-decoder component of the portfolio repository
(`src/models.rs`).  The source defines two serde-`Deserialize` records:

  pub struct JobEntry { pub key: u32, pub name: String, pub details: String,
                        pub tools: String, pub screen: String, pub link: String }
  pub struct JobData  { pub entries: Vec<JobEntry> }

We shallowly embed the structured input as an inductive `Json` value and the
derived deserializers as executable Lean functions that mirror the code
serde generates for these two structs when driven by a streaming JSON
deserializer: an object is presented as its member list in source order,
preserving duplicates; known fields are matched by exact name in any order;
a field seen twice raises a duplicate-field error; unknown members are
skipped; after the scan, the first still-unset field in declaration order
raises a missing-field error.  `u32` decoding accepts exactly the integers
in [0, 2^32), rejecting out-of-range integers with an invalid-value error
and every non-integer value with an invalid-type error; `String` decoding
accepts exactly text values.  Error payloads abstract serde's message
strings by the expected-type description; serde_json additionally permits a
positional-sequence encoding of structs, which nothing here exercises (the
contract under verification concerns the object form only).
-/

namespace Models

/-- A structured (JSON-like) value.  `num` carries the mathematical integer
of an integral JSON number; `numFloat` stands for a non-integral (floating
point) number, whose magnitude never matters to these decoders.  `obj`
keeps its member list in source order, duplicates included, as a streaming
deserializer presents them. -/
inductive Json where
  | null
  | bool (b : Bool)
  | num (n : Int)
  | numFloat
  | str (s : String)
  | arr (elems : List Json)
  | obj (members : List (String × Json))
deriving Repr

/-- The error classes serde raises for these derives: a required field
absent at end of scan, a known field seen twice, a value of the wrong kind,
and an integer outside the target range. -/
inductive DecodeError where
  | missingField (field : String)
  | duplicateField (field : String)
  | invalidType (expected : String)
  | invalidValue (expected : String)
deriving DecidableEq, Repr

/-- Rust's `u32`. -/
abbrev U32 := Fin 4294967296

structure JobEntry where
  key : U32
  name : String
  details : String
  tools : String
  screen : String
  link : String
deriving DecidableEq, Repr

structure JobData where
  entries : List JobEntry
deriving DecidableEq, Repr

/-- Deserializing a `u32` field value: an integral number in range succeeds;
an integral number out of range is an invalid-value error; anything else
(float, text, boolean, null, list, object) is an invalid-type error. -/
def decodeU32 : Json → Except DecodeError U32
  | .num n =>
    if h : 0 ≤ n ∧ n < 4294967296 then .ok ⟨n.toNat, by omega⟩
    else .error (.invalidValue "u32")
  | _ => .error (.invalidType "u32")

/-- Deserializing a `String` field value: exactly text succeeds. -/
def decodeString : Json → Except DecodeError String
  | .str s => .ok s
  | _ => .error (.invalidType "a string")

/-- End-of-scan step of the derived `JobEntry` visitor: report the first
field still unset, in declaration order, else build the record. -/
def finishEntry : Option U32 → Option String → Option String → Option String →
    Option String → Option String → Except DecodeError JobEntry
  | none, _, _, _, _, _ => .error (.missingField "key")
  | some _, none, _, _, _, _ => .error (.missingField "name")
  | some _, some _, none, _, _, _ => .error (.missingField "details")
  | some _, some _, some _, none, _, _ => .error (.missingField "tools")
  | some _, some _, some _, some _, none, _ => .error (.missingField "screen")
  | some _, some _, some _, some _, some _, none => .error (.missingField "link")
  | some k, some nm, some dt, some tl, some sc, some lk => .ok ⟨k, nm, dt, tl, sc, lk⟩

/-- The map-visiting loop of the derived `JobEntry` deserializer, one
`Option` accumulator per field. -/
def visitEntryMap : List (String × Json) → Option U32 → Option String →
    Option String → Option String → Option String → Option String →
    Except DecodeError JobEntry
  | [], kA, nA, dA, tA, sA, lA => finishEntry kA nA dA tA sA lA
  | (f, v) :: rest, kA, nA, dA, tA, sA, lA =>
    if f = "key" then
      match kA with
      | some _ => .error (.duplicateField "key")
      | none =>
        match decodeU32 v with
        | .error e => .error e
        | .ok x => visitEntryMap rest (some x) nA dA tA sA lA
    else if f = "name" then
      match nA with
      | some _ => .error (.duplicateField "name")
      | none =>
        match decodeString v with
        | .error e => .error e
        | .ok x => visitEntryMap rest kA (some x) dA tA sA lA
    else if f = "details" then
      match dA with
      | some _ => .error (.duplicateField "details")
      | none =>
        match decodeString v with
        | .error e => .error e
        | .ok x => visitEntryMap rest kA nA (some x) tA sA lA
    else if f = "tools" then
      match tA with
      | some _ => .error (.duplicateField "tools")
      | none =>
        match decodeString v with
        | .error e => .error e
        | .ok x => visitEntryMap rest kA nA dA (some x) sA lA
    else if f = "screen" then
      match sA with
      | some _ => .error (.duplicateField "screen")
      | none =>
        match decodeString v with
        | .error e => .error e
        | .ok x => visitEntryMap rest kA nA dA tA (some x) lA
    else if f = "link" then
      match lA with
      | some _ => .error (.duplicateField "link")
      | none =>
        match decodeString v with
        | .error e => .error e
        | .ok x => visitEntryMap rest kA nA dA tA sA (some x)
    else visitEntryMap rest kA nA dA tA sA lA

/-- Derived `JobEntry` deserializer (object form). -/
def decodeJobEntry : Json → Except DecodeError JobEntry
  | .obj ms => visitEntryMap ms none none none none none none
  | _ => .error (.invalidType "struct JobEntry")

/-- `Vec<JobEntry>` element loop: decode each element in order, failing on
the first element that fails. -/
def decodeEntries : List Json → Except DecodeError (List JobEntry)
  | [] => .ok []
  | o :: rest =>
    match decodeJobEntry o with
    | .error e => .error e
    | .ok e =>
      match decodeEntries rest with
      | .error e2 => .error e2
      | .ok es => .ok (e :: es)

/-- Deserializing the `entries` field value: must be a list. -/
def decodeEntryList : Json → Except DecodeError (List JobEntry)
  | .arr es => decodeEntries es
  | _ => .error (.invalidType "a sequence")

/-- The map-visiting loop of the derived `JobData` deserializer. -/
def visitDataMap : List (String × Json) → Option (List JobEntry) →
    Except DecodeError JobData
  | [], some es => .ok ⟨es⟩
  | [], none => .error (.missingField "entries")
  | (f, v) :: rest, acc =>
    if f = "entries" then
      match acc with
      | some _ => .error (.duplicateField "entries")
      | none =>
        match decodeEntryList v with
        | .error e => .error e
        | .ok es => visitDataMap rest (some es)
    else visitDataMap rest acc

/-- Derived `JobData` deserializer (object form): the whole decode. -/
def decodeJobData : Json → Except DecodeError JobData
  | .obj ms => visitDataMap ms none
  | _ => .error (.invalidType "struct JobData")

/-- The six field names of `JobEntry`, in declaration order. -/
def entryFieldNames : List String :=
  ["key", "name", "details", "tools", "screen", "link"]

/-- First value bound to member name `f`, if any. -/
def lookupField (ms : List (String × Json)) (f : String) : Option Json :=
  match ms with
  | [] => none
  | (g, v) :: rest => if g = f then some v else lookupField rest f

/-- Number of members named `f`. -/
def countField (ms : List (String × Json)) (f : String) : Nat :=
  match ms with
  | [] => 0
  | (g, _) :: rest => (if g = f then 1 else 0) + countField rest f

/-- Modelled from the spec: the source derives only deserialization, so the
encoder the round-trip property speaks of ("encoding a constructed
JobCollection back into the same structured format") is not in the source.
Following the spec's field table, a `JobEntry` encodes as an object with
exactly its six fields, in declaration order, values verbatim. -/
def encodeJobEntry (e : JobEntry) : Json :=
  .obj [("key", .num (e.key.val : Int)), ("name", .str e.name),
        ("details", .str e.details), ("tools", .str e.tools),
        ("screen", .str e.screen), ("link", .str e.link)]

/-- Modelled from the spec: a `JobData` encodes as an object whose single
member `entries` is the list of encoded entries, order preserved. -/
def encodeJobData (d : JobData) : Json :=
  .obj [("entries", .arr (d.entries.map encodeJobEntry))]

/-- The spec's `TypeMismatch` class corresponds to serde's invalid-type
errors. -/
def DecodeError.isTypeMismatch : DecodeError → Bool
  | .invalidType _ => true
  | _ => false

/-- The spec's `MissingField` class corresponds to serde's missing-field
errors. -/
def DecodeError.isMissingField : DecodeError → Bool
  | .missingField _ => true
  | _ => false

/-- What a field value must satisfy to decode: `key` needs `decodeU32` to
succeed, every other field needs `decodeString` to succeed. -/
def fieldOk (g : String) (v : Json) : Prop :=
  if g = "key" then ∃ x, decodeU32 v = .ok x else ∃ s, decodeString v = .ok s

/-- Field `g` occurs exactly once in `ms` and its value decodes. -/
def GoodField (ms : List (String × Json)) (g : String) : Prop :=
  countField ms g = 1 ∧ ∃ v, lookupField ms g = some v ∧ fieldOk g v

/-- Invariant tying one field's accumulator `acc` to the value `fin` it will
hold after the remaining members `ms` are scanned: either already set and not
seen again, or unset and seen exactly once with a decodable value, or unset
and never seen. -/
def FState (α : Type) (dec : Json → Except DecodeError α)
    (ms : List (String × Json)) (f : String) (acc fin : Option α) : Prop :=
  (∃ x, acc = some x ∧ countField ms f = 0 ∧ fin = some x) ∨
  (acc = none ∧ countField ms f = 1 ∧
    ∃ v x, lookupField ms f = some v ∧ dec v = .ok x ∧ fin = some x) ∨
  (acc = none ∧ countField ms f = 0 ∧ fin = none)

lemma countField_nil (f : String) : countField [] f = 0 := rfl

lemma countField_cons (g : String) (v : Json) (rest : List (String × Json))
    (f : String) :
    countField ((g, v) :: rest) f = (if g = f then 1 else 0) + countField rest f := rfl

lemma lookupField_cons (g : String) (v : Json) (rest : List (String × Json))
    (f : String) :
    lookupField ((g, v) :: rest) f = if g = f then some v else lookupField rest f := rfl

lemma FState_nil_eq {α : Type} {dec : Json → Except DecodeError α} {f : String}
    {acc fin : Option α} (h : FState α dec [] f acc fin) : acc = fin := by
  rcases h with ⟨x, h1, _, h3⟩ | ⟨_, h2, _⟩ | ⟨h1, _, h3⟩
  · rw [h1, h3]
  · simp [countField] at h2
  · rw [h1, h3]

lemma FState_cons_ne {α : Type} {dec : Json → Except DecodeError α}
    {g : String} {v : Json} {rest : List (String × Json)} {f : String}
    {acc fin : Option α} (hne : ¬ g = f)
    (h : FState α dec ((g, v) :: rest) f acc fin) : FState α dec rest f acc fin := by
  have hc : countField ((g, v) :: rest) f = countField rest f := by
    simp [countField_cons, hne]
  have hl : lookupField ((g, v) :: rest) f = lookupField rest f := by
    simp [lookupField_cons, hne]
  unfold FState at h ⊢
  rw [hc, hl] at h
  exact h

lemma FState_cons_self {α : Type} {dec : Json → Except DecodeError α}
    {g : String} {v : Json} {rest : List (String × Json)}
    {acc fin : Option α} (h : FState α dec ((g, v) :: rest) g acc fin) :
    acc = none ∧ countField rest g = 0 ∧ ∃ x, dec v = .ok x ∧ fin = some x := by
  have hc : countField ((g, v) :: rest) g = 1 + countField rest g := by
    simp [countField_cons]
  have hl : lookupField ((g, v) :: rest) g = some v := by
    simp [lookupField_cons]
  unfold FState at h
  rw [hc, hl] at h
  rcases h with ⟨x, _, h2, _⟩ | ⟨h1, h2, v2, x, hv2, hx, hfin⟩ | ⟨_, h2, _⟩
  · omega
  · refine ⟨h1, by omega, x, ?_, hfin⟩
    obtain rfl : v = v2 := by injection hv2
    exact hx
  · omega

set_option maxHeartbeats 2000000 in
/-- One step of the `JobEntry` visiting loop, with the head member explicit. -/
lemma visitEntryMap_cons (g : String) (v : Json) (rest : List (String × Json))
    (kA : Option U32) (nA dA tA sA lA : Option String) :
    visitEntryMap ((g, v) :: rest) kA nA dA tA sA lA =
    (if g = "key" then
      match kA with
      | some _ => .error (.duplicateField "key")
      | none =>
        match decodeU32 v with
        | .error e => .error e
        | .ok x => visitEntryMap rest (some x) nA dA tA sA lA
    else if g = "name" then
      match nA with
      | some _ => .error (.duplicateField "name")
      | none =>
        match decodeString v with
        | .error e => .error e
        | .ok x => visitEntryMap rest kA (some x) dA tA sA lA
    else if g = "details" then
      match dA with
      | some _ => .error (.duplicateField "details")
      | none =>
        match decodeString v with
        | .error e => .error e
        | .ok x => visitEntryMap rest kA nA (some x) tA sA lA
    else if g = "tools" then
      match tA with
      | some _ => .error (.duplicateField "tools")
      | none =>
        match decodeString v with
        | .error e => .error e
        | .ok x => visitEntryMap rest kA nA dA (some x) sA lA
    else if g = "screen" then
      match sA with
      | some _ => .error (.duplicateField "screen")
      | none =>
        match decodeString v with
        | .error e => .error e
        | .ok x => visitEntryMap rest kA nA dA tA (some x) lA
    else if g = "link" then
      match lA with
      | some _ => .error (.duplicateField "link")
      | none =>
        match decodeString v with
        | .error e => .error e
        | .ok x => visitEntryMap rest kA nA dA tA sA (some x)
    else visitEntryMap rest kA nA dA tA sA lA) := rfl

/-- Characterization of the `JobEntry` map-visiting loop: if every field's
accumulator is related to a final value by `FState`, the loop computes
exactly `finishEntry` of the final values. -/
lemma visitEntryMap_char (ms : List (String × Json))
    (kA kF : Option U32) (nA nF dA dF tA tF sA sF lA lF : Option String)
    (hk : FState U32 decodeU32 ms "key" kA kF)
    (hn : FState String decodeString ms "name" nA nF)
    (hd : FState String decodeString ms "details" dA dF)
    (ht : FState String decodeString ms "tools" tA tF)
    (hs : FState String decodeString ms "screen" sA sF)
    (hl : FState String decodeString ms "link" lA lF) :
    visitEntryMap ms kA nA dA tA sA lA = finishEntry kF nF dF tF sF lF := by
  induction ms generalizing kA nA dA tA sA lA with
  | nil =>
    rw [visitEntryMap, FState_nil_eq hk, FState_nil_eq hn, FState_nil_eq hd,
      FState_nil_eq ht, FState_nil_eq hs, FState_nil_eq hl]
  | cons p rest ih =>
    obtain ⟨g, v⟩ := p
    by_cases hg1 : g = "key"
    · subst hg1
      obtain ⟨hA, _, x, hx, _⟩ := FState_cons_self hk
      subst hA
      rw [visitEntryMap_cons, if_pos rfl, hx]
      exact ih _ _ _ _ _ _
        (by rcases FState_cons_self hk with ⟨_, hc0, y, hy, hfin⟩
            obtain rfl : x = y := by rw [hx] at hy; injection hy
            exact Or.inl ⟨x, rfl, hc0, hfin⟩)
        (FState_cons_ne (by decide) hn) (FState_cons_ne (by decide) hd)
        (FState_cons_ne (by decide) ht) (FState_cons_ne (by decide) hs)
        (FState_cons_ne (by decide) hl)
    · by_cases hg2 : g = "name"
      · subst hg2
        obtain ⟨hA, _, x, hx, _⟩ := FState_cons_self hn
        subst hA
        rw [visitEntryMap_cons, if_neg (by decide), if_pos rfl, hx]
        exact ih _ _ _ _ _ _
          (FState_cons_ne (by decide) hk)
          (by rcases FState_cons_self hn with ⟨_, hc0, y, hy, hfin⟩
              obtain rfl : x = y := by rw [hx] at hy; injection hy
              exact Or.inl ⟨x, rfl, hc0, hfin⟩)
          (FState_cons_ne (by decide) hd) (FState_cons_ne (by decide) ht)
          (FState_cons_ne (by decide) hs) (FState_cons_ne (by decide) hl)
      · by_cases hg3 : g = "details"
        · subst hg3
          obtain ⟨hA, _, x, hx, _⟩ := FState_cons_self hd
          subst hA
          rw [visitEntryMap_cons, if_neg (by decide), if_neg (by decide), if_pos rfl, hx]
          exact ih _ _ _ _ _ _
            (FState_cons_ne (by decide) hk) (FState_cons_ne (by decide) hn)
            (by rcases FState_cons_self hd with ⟨_, hc0, y, hy, hfin⟩
                obtain rfl : x = y := by rw [hx] at hy; injection hy
                exact Or.inl ⟨x, rfl, hc0, hfin⟩)
            (FState_cons_ne (by decide) ht) (FState_cons_ne (by decide) hs)
            (FState_cons_ne (by decide) hl)
        · by_cases hg4 : g = "tools"
          · subst hg4
            obtain ⟨hA, _, x, hx, _⟩ := FState_cons_self ht
            subst hA
            rw [visitEntryMap_cons, if_neg (by decide), if_neg (by decide),
              if_neg (by decide), if_pos rfl, hx]
            exact ih _ _ _ _ _ _
              (FState_cons_ne (by decide) hk) (FState_cons_ne (by decide) hn)
              (FState_cons_ne (by decide) hd)
              (by rcases FState_cons_self ht with ⟨_, hc0, y, hy, hfin⟩
                  obtain rfl : x = y := by rw [hx] at hy; injection hy
                  exact Or.inl ⟨x, rfl, hc0, hfin⟩)
              (FState_cons_ne (by decide) hs) (FState_cons_ne (by decide) hl)
          · by_cases hg5 : g = "screen"
            · subst hg5
              obtain ⟨hA, _, x, hx, _⟩ := FState_cons_self hs
              subst hA
              rw [visitEntryMap_cons, if_neg (by decide), if_neg (by decide),
                if_neg (by decide), if_neg (by decide), if_pos rfl, hx]
              exact ih _ _ _ _ _ _
                (FState_cons_ne (by decide) hk) (FState_cons_ne (by decide) hn)
                (FState_cons_ne (by decide) hd) (FState_cons_ne (by decide) ht)
                (by rcases FState_cons_self hs with ⟨_, hc0, y, hy, hfin⟩
                    obtain rfl : x = y := by rw [hx] at hy; injection hy
                    exact Or.inl ⟨x, rfl, hc0, hfin⟩)
                (FState_cons_ne (by decide) hl)
            · by_cases hg6 : g = "link"
              · subst hg6
                obtain ⟨hA, _, x, hx, _⟩ := FState_cons_self hl
                subst hA
                rw [visitEntryMap_cons, if_neg (by decide), if_neg (by decide),
                  if_neg (by decide), if_neg (by decide), if_neg (by decide),
                  if_pos rfl, hx]
                exact ih _ _ _ _ _ _
                  (FState_cons_ne (by decide) hk) (FState_cons_ne (by decide) hn)
                  (FState_cons_ne (by decide) hd) (FState_cons_ne (by decide) ht)
                  (FState_cons_ne (by decide) hs)
                  (by rcases FState_cons_self hl with ⟨_, hc0, y, hy, hfin⟩
                      obtain rfl : x = y := by rw [hx] at hy; injection hy
                      exact Or.inl ⟨x, rfl, hc0, hfin⟩)
              · rw [visitEntryMap_cons, if_neg hg1, if_neg hg2, if_neg hg3,
                  if_neg hg4, if_neg hg5, if_neg hg6]
                exact ih _ _ _ _ _ _
                  (FState_cons_ne hg1 hk) (FState_cons_ne hg2 hn)
                  (FState_cons_ne hg3 hd) (FState_cons_ne hg4 ht)
                  (FState_cons_ne hg5 hs) (FState_cons_ne hg6 hl)

/-- One step of the `JobData` visiting loop, with the head member explicit. -/
lemma visitDataMap_cons (g : String) (v : Json) (rest : List (String × Json))
    (acc : Option (List JobEntry)) :
    visitDataMap ((g, v) :: rest) acc =
    (if g = "entries" then
      match acc with
      | some _ => .error (.duplicateField "entries")
      | none =>
        match decodeEntryList v with
        | .error e => .error e
        | .ok es => visitDataMap rest (some es)
    else visitDataMap rest acc) := rfl

/-- After `entries` is set, the rest of the scan returns it provided
`entries` does not occur again. -/
lemma visitDataMap_done (rms : List (String × Json)) (es : List JobEntry)
    (hc : countField rms "entries" = 0) :
    visitDataMap rms (some es) = .ok ⟨es⟩ := by
  induction rms with
  | nil => rfl
  | cons p rest ih =>
    obtain ⟨g, v⟩ := p
    rw [countField_cons] at hc
    by_cases hg : g = "entries"
    · rw [if_pos hg] at hc; omega
    · rw [if_neg hg] at hc
      rw [visitDataMap_cons, if_neg hg]
      exact ih (by omega)

/-- If `entries` never occurs, the scan ends with a missing-field error. -/
lemma visitDataMap_missing (rms : List (String × Json))
    (hc : countField rms "entries" = 0) :
    visitDataMap rms none = .error (.missingField "entries") := by
  induction rms with
  | nil => rfl
  | cons p rest ih =>
    obtain ⟨g, v⟩ := p
    rw [countField_cons] at hc
    by_cases hg : g = "entries"
    · rw [if_pos hg] at hc; omega
    · rw [if_neg hg] at hc
      rw [visitDataMap_cons, if_neg hg]
      exact ih (by omega)

/-- If `entries` occurs exactly once, the scan decodes exactly its value. -/
lemma visitDataMap_once (rms : List (String × Json)) (v : Json)
    (hc : countField rms "entries" = 1)
    (hv : lookupField rms "entries" = some v) :
    visitDataMap rms none =
      (match decodeEntryList v with
       | .error e => .error e
       | .ok es => .ok ⟨es⟩) := by
  induction rms with
  | nil => simp [countField] at hc
  | cons p rest ih =>
    obtain ⟨g, w⟩ := p
    rw [countField_cons] at hc
    rw [lookupField_cons] at hv
    by_cases hg : g = "entries"
    · rw [if_pos hg] at hc hv
      have hwv : w = v := by injection hv
      rw [visitDataMap_cons, if_pos hg, hwv]
      cases hdec : decodeEntryList v with
      | error e => simp [hdec]
      | ok es =>
        simp only [hdec]
        exact visitDataMap_done rest es (by omega)
    · rw [if_neg hg] at hc hv
      rw [visitDataMap_cons, if_neg hg]
      exact ih (by omega) hv

lemma decodeU32_num_val (k : U32) : decodeU32 (.num (k.val : Int)) = .ok k := by
  have hb := k.isLt
  rw [decodeU32, dif_pos (by omega)]
  exact congrArg Except.ok (Fin.ext (by simp))

/-- A field other than `key` that is present once with a decodable value
yields an `FState` with some final string. -/
lemma FState_goodString {ms : List (String × Json)} {g : String}
    (hgood : GoodField ms g) (hg : ¬ g = "key") :
    ∃ s, FState String decodeString ms g none (some s) := by
  obtain ⟨hc, v, hv, hok⟩ := hgood
  rw [fieldOk, if_neg hg] at hok
  obtain ⟨s, hs⟩ := hok
  exact ⟨s, Or.inr (Or.inl ⟨rfl, hc, v, s, hv, hs, rfl⟩)⟩

/-- A `key` field present once with a decodable value yields an `FState`
with some final `U32`. -/
lemma FState_goodKey {ms : List (String × Json)}
    (hgood : GoodField ms "key") :
    ∃ x, FState U32 decodeU32 ms "key" none (some x) := by
  obtain ⟨hc, v, hv, hok⟩ := hgood
  rw [fieldOk, if_pos rfl] at hok
  obtain ⟨x, hx⟩ := hok
  exact ⟨x, Or.inr (Or.inl ⟨rfl, hc, v, x, hv, hx, rfl⟩)⟩

/-- An absent field yields an `FState` with final value `none`. -/
lemma FState_absent {α : Type} {dec : Json → Except DecodeError α}
    {ms : List (String × Json)} {f : String}
    (hc : countField ms f = 0) : FState α dec ms f none none :=
  Or.inr (Or.inr ⟨rfl, hc, rfl⟩)

/-- The six fields of `ms` seen as the fields of the entry `e`: each occurs
(first) with exactly `e`'s value, unchanged. -/
def EntryView (ms : List (String × Json)) (e : JobEntry) : Prop :=
  lookupField ms "key" = some (.num (e.key.val : Int)) ∧
  lookupField ms "name" = some (.str e.name) ∧
  lookupField ms "details" = some (.str e.details) ∧
  lookupField ms "tools" = some (.str e.tools) ∧
  lookupField ms "screen" = some (.str e.screen) ∧
  lookupField ms "link" = some (.str e.link)

/-- A raw value acceptable as a `JobEntry`: an object carrying each of the
six fields exactly once with a value of the right kind. -/
def ValidEntryObj (o : Json) : Prop :=
  ∃ ms, o = .obj ms ∧ (∀ f ∈ entryFieldNames, countField ms f = 1) ∧
    ∃ e, EntryView ms e

/-- A valid entry object decodes to exactly the entry it views. -/
lemma decodeJobEntry_of_view (ms : List (String × Json)) (e : JobEntry)
    (hcnt : ∀ f ∈ entryFieldNames, countField ms f = 1)
    (hview : EntryView ms e) :
    decodeJobEntry (.obj ms) = .ok e := by
  obtain ⟨hk, hn, hd, ht, hs, hl⟩ := hview
  have hck : countField ms "key" = 1 := hcnt "key" (by simp [entryFieldNames])
  have hcn : countField ms "name" = 1 := hcnt "name" (by simp [entryFieldNames])
  have hcd : countField ms "details" = 1 := hcnt "details" (by simp [entryFieldNames])
  have hct : countField ms "tools" = 1 := hcnt "tools" (by simp [entryFieldNames])
  have hcs : countField ms "screen" = 1 := hcnt "screen" (by simp [entryFieldNames])
  have hcl : countField ms "link" = 1 := hcnt "link" (by simp [entryFieldNames])
  rw [decodeJobEntry]
  rw [visitEntryMap_char ms none (some e.key) none (some e.name) none (some e.details)
    none (some e.tools) none (some e.screen) none (some e.link)
    (Or.inr (Or.inl ⟨rfl, hck, _, e.key, hk, decodeU32_num_val e.key, rfl⟩))
    (Or.inr (Or.inl ⟨rfl, hcn, _, e.name, hn, rfl, rfl⟩))
    (Or.inr (Or.inl ⟨rfl, hcd, _, e.details, hd, rfl, rfl⟩))
    (Or.inr (Or.inl ⟨rfl, hct, _, e.tools, ht, rfl, rfl⟩))
    (Or.inr (Or.inl ⟨rfl, hcs, _, e.screen, hs, rfl, rfl⟩))
    (Or.inr (Or.inl ⟨rfl, hcl, _, e.link, hl, rfl, rfl⟩))]
  rfl

/-- Element-wise success of the `Vec<JobEntry>` loop, tracking a relation
between raw elements and decoded entries. -/
lemma decodeEntries_ok {R : Json → JobEntry → Prop} (objs : List Json)
    (h : ∀ o ∈ objs, ∃ e, decodeJobEntry o = .ok e ∧ R o e) :
    ∃ es, decodeEntries objs = .ok es ∧ es.length = objs.length ∧
      ∀ i (hi : i < objs.length) (hi2 : i < es.length),
        R (objs.get ⟨i, hi⟩) (es.get ⟨i, hi2⟩) := by
  induction objs with
  | nil => exact ⟨[], rfl, rfl, by intro i hi _; simp at hi⟩
  | cons o rest ih =>
    obtain ⟨e, he, hR⟩ := h o (by simp)
    obtain ⟨es, hes, hlen, hrel⟩ := ih (fun o2 ho2 => h o2 (by simp [ho2]))
    refine ⟨e :: es, ?_, by simp [hlen], ?_⟩
    · rw [decodeEntries, he, hes]
    · intro i hi hi2
      match i with
      | 0 => exact hR
      | j + 1 =>
        exact hrel j (by simpa using hi) (by simpa using hi2)

/-- A field whose scan can only go well: either already set and never seen
again, or unset, seen at most once, with any seen value decodable. -/
def OkState (α : Type) (dec : Json → Except DecodeError α)
    (ms : List (String × Json)) (f : String) (acc : Option α) : Prop :=
  (∃ x, acc = some x ∧ countField ms f = 0) ∨
  (acc = none ∧ countField ms f ≤ 1 ∧ ∀ v, lookupField ms f = some v → ∃ x, dec v = .ok x)

/-- A field whose scan must end in the error `e`: its single occurrence has
an undecodable value, or it occurs twice (first value fine) making `e` the
duplicate-field error, or it is already set and occurs again. -/
def BadState (α : Type) (dec : Json → Except DecodeError α)
    (ms : List (String × Json)) (f : String) (acc : Option α)
    (e : DecodeError) : Prop :=
  (acc = none ∧ countField ms f = 1 ∧
    ∃ v, lookupField ms f = some v ∧ dec v = .error e) ∨
  (acc = none ∧ countField ms f = 2 ∧
    (∃ v x, lookupField ms f = some v ∧ dec v = .ok x) ∧ e = .duplicateField f) ∨
  (∃ x, acc = some x ∧ 1 ≤ countField ms f ∧ e = .duplicateField f)

/-- Per-field scan outcome: `none` means the field goes well, `some e` that
it must raise `e`. -/
def FailState (α : Type) (dec : Json → Except DecodeError α)
    (ms : List (String × Json)) (f : String) (acc : Option α) :
    Option DecodeError → Prop
  | none => OkState α dec ms f acc
  | some e => BadState α dec ms f acc e

lemma OkState_cons_ne {α : Type} {dec : Json → Except DecodeError α}
    {g : String} {v : Json} {rest : List (String × Json)} {f : String}
    {acc : Option α} (hne : ¬ g = f)
    (h : OkState α dec ((g, v) :: rest) f acc) : OkState α dec rest f acc := by
  have hc : countField ((g, v) :: rest) f = countField rest f := by
    simp [countField_cons, hne]
  have hl : lookupField ((g, v) :: rest) f = lookupField rest f := by
    simp [lookupField_cons, hne]
  unfold OkState at h ⊢
  rw [hc, hl] at h
  exact h

lemma BadState_cons_ne {α : Type} {dec : Json → Except DecodeError α}
    {g : String} {v : Json} {rest : List (String × Json)} {f : String}
    {acc : Option α} {e : DecodeError} (hne : ¬ g = f)
    (h : BadState α dec ((g, v) :: rest) f acc e) : BadState α dec rest f acc e := by
  have hc : countField ((g, v) :: rest) f = countField rest f := by
    simp [countField_cons, hne]
  have hl : lookupField ((g, v) :: rest) f = lookupField rest f := by
    simp [lookupField_cons, hne]
  unfold BadState at h ⊢
  rw [hc, hl] at h
  exact h

lemma FailState_cons_ne {α : Type} {dec : Json → Except DecodeError α}
    {g : String} {v : Json} {rest : List (String × Json)} {f : String}
    {acc : Option α} {E : Option DecodeError} (hne : ¬ g = f)
    (h : FailState α dec ((g, v) :: rest) f acc E) : FailState α dec rest f acc E := by
  cases E with
  | none => exact OkState_cons_ne hne h
  | some e => exact BadState_cons_ne hne h

lemma OkState_cons_self {α : Type} {dec : Json → Except DecodeError α}
    {g : String} {v : Json} {rest : List (String × Json)} {acc : Option α}
    (h : OkState α dec ((g, v) :: rest) g acc) :
    acc = none ∧ countField rest g = 0 ∧ ∃ x, dec v = .ok x := by
  have hc : countField ((g, v) :: rest) g = 1 + countField rest g := by
    simp [countField_cons]
  have hl : lookupField ((g, v) :: rest) g = some v := by
    simp [lookupField_cons]
  unfold OkState at h
  rw [hc, hl] at h
  rcases h with ⟨x, _, h2⟩ | ⟨h1, h2, h3⟩
  · omega
  · exact ⟨h1, by omega, h3 v rfl⟩

lemma BadState_cons_self {α : Type} {dec : Json → Except DecodeError α}
    {g : String} {v : Json} {rest : List (String × Json)} {acc : Option α}
    {e : DecodeError} (h : BadState α dec ((g, v) :: rest) g acc e) :
    (acc = none ∧ countField rest g = 0 ∧ dec v = .error e) ∨
    (acc = none ∧ countField rest g = 1 ∧ (∃ x, dec v = .ok x) ∧
      e = .duplicateField g) ∨
    (∃ x, acc = some x ∧ e = .duplicateField g) := by
  have hc : countField ((g, v) :: rest) g = 1 + countField rest g := by
    simp [countField_cons]
  have hl : lookupField ((g, v) :: rest) g = some v := by
    simp [lookupField_cons]
  unfold BadState at h
  rw [hc, hl] at h
  rcases h with ⟨h1, h2, v2, hv2, hd⟩ | ⟨h1, h2, ⟨v2, x, hv2, hx⟩, he⟩ | ⟨x, h1, _, he⟩
  · have hvv : v = v2 := by injection hv2
    exact Or.inl ⟨h1, by omega, by rw [hvv]; exact hd⟩
  · have hvv : v = v2 := by injection hv2
    exact Or.inr (Or.inl ⟨h1, by omega, ⟨x, by rw [hvv]; exact hx⟩, he⟩)
  · exact Or.inr (Or.inr ⟨x, h1, he⟩)

lemma FailState_nil {α : Type} {dec : Json → Except DecodeError α}
    {f : String} {acc : Option α} {E : Option DecodeError}
    (h : FailState α dec [] f acc E) : E = none := by
  cases E with
  | none => rfl
  | some e =>
    rcases h with ⟨_, h2, _⟩ | ⟨_, h2, _⟩ | ⟨x, _, h2, _⟩ <;>
      simp [countField] at h2

/-- Failure of the `JobEntry` map-visiting loop: if every field is in an
`Ok` or `Bad` state and at least one is `Bad`, the loop raises one of the
designated errors. -/
lemma visitEntryMap_fails (ms : List (String × Json))
    (kA : Option U32) (nA dA tA sA lA : Option String)
    (eK eN eD eT eS eL : Option DecodeError)
    (hk : FailState U32 decodeU32 ms "key" kA eK)
    (hn : FailState String decodeString ms "name" nA eN)
    (hd : FailState String decodeString ms "details" dA eD)
    (ht : FailState String decodeString ms "tools" tA eT)
    (hs : FailState String decodeString ms "screen" sA eS)
    (hl : FailState String decodeString ms "link" lA eL)
    (hne : ¬ (eK = none ∧ eN = none ∧ eD = none ∧ eT = none ∧ eS = none ∧ eL = none)) :
    ∃ e, visitEntryMap ms kA nA dA tA sA lA = .error e ∧
      (eK = some e ∨ eN = some e ∨ eD = some e ∨ eT = some e ∨ eS = some e ∨ eL = some e) := by
  induction ms generalizing kA nA dA tA sA lA with
  | nil =>
    exact absurd ⟨FailState_nil hk, FailState_nil hn, FailState_nil hd,
      FailState_nil ht, FailState_nil hs, FailState_nil hl⟩ hne
  | cons p rest ih =>
    obtain ⟨g, v⟩ := p
    by_cases hg1 : g = "key"
    · subst hg1
      cases eK with
      | none =>
        obtain ⟨hacc, hc0, x, hx⟩ := OkState_cons_self hk
        subst hacc
        rw [visitEntryMap_cons, if_pos rfl, hx]
        exact ih (some x) nA dA tA sA lA (Or.inl ⟨x, rfl, hc0⟩)
          (FailState_cons_ne (by decide) hn) (FailState_cons_ne (by decide) hd)
          (FailState_cons_ne (by decide) ht) (FailState_cons_ne (by decide) hs)
          (FailState_cons_ne (by decide) hl)
      | some e =>
        rcases BadState_cons_self hk with ⟨hacc, _, hdec⟩ |
          ⟨hacc, hc1, ⟨x, hx⟩, hdup⟩ | ⟨x, hacc, hdup⟩
        · subst hacc
          rw [visitEntryMap_cons, if_pos rfl, hdec]
          exact ⟨e, rfl, Or.inl rfl⟩
        · subst hacc
          rw [visitEntryMap_cons, if_pos rfl, hx]
          exact ih (some x) nA dA tA sA lA
            (Or.inr (Or.inr ⟨x, rfl, by omega, hdup⟩))
            (FailState_cons_ne (by decide) hn) (FailState_cons_ne (by decide) hd)
            (FailState_cons_ne (by decide) ht) (FailState_cons_ne (by decide) hs)
            (FailState_cons_ne (by decide) hl)
        · subst hacc
          rw [visitEntryMap_cons, if_pos rfl]
          exact ⟨e, by rw [hdup], Or.inl rfl⟩
    · by_cases hg2 : g = "name"
      · subst hg2
        cases eN with
        | none =>
          obtain ⟨hacc, hc0, x, hx⟩ := OkState_cons_self hn
          subst hacc
          rw [visitEntryMap_cons, if_neg (by decide), if_pos rfl, hx]
          exact ih kA (some x) dA tA sA lA (FailState_cons_ne (by decide) hk)
            (Or.inl ⟨x, rfl, hc0⟩)
            (FailState_cons_ne (by decide) hd) (FailState_cons_ne (by decide) ht)
            (FailState_cons_ne (by decide) hs) (FailState_cons_ne (by decide) hl)
        | some e =>
          rcases BadState_cons_self hn with ⟨hacc, _, hdec⟩ |
            ⟨hacc, hc1, ⟨x, hx⟩, hdup⟩ | ⟨x, hacc, hdup⟩
          · subst hacc
            rw [visitEntryMap_cons, if_neg (by decide), if_pos rfl, hdec]
            exact ⟨e, rfl, Or.inr (Or.inl rfl)⟩
          · subst hacc
            rw [visitEntryMap_cons, if_neg (by decide), if_pos rfl, hx]
            exact ih kA (some x) dA tA sA lA (FailState_cons_ne (by decide) hk)
              (Or.inr (Or.inr ⟨x, rfl, by omega, hdup⟩))
              (FailState_cons_ne (by decide) hd) (FailState_cons_ne (by decide) ht)
              (FailState_cons_ne (by decide) hs) (FailState_cons_ne (by decide) hl)
          · subst hacc
            rw [visitEntryMap_cons, if_neg (by decide), if_pos rfl]
            exact ⟨e, by rw [hdup], Or.inr (Or.inl rfl)⟩
      · by_cases hg3 : g = "details"
        · subst hg3
          cases eD with
          | none =>
            obtain ⟨hacc, hc0, x, hx⟩ := OkState_cons_self hd
            subst hacc
            rw [visitEntryMap_cons, if_neg (by decide), if_neg (by decide),
              if_pos rfl, hx]
            exact ih kA nA (some x) tA sA lA (FailState_cons_ne (by decide) hk)
              (FailState_cons_ne (by decide) hn) (Or.inl ⟨x, rfl, hc0⟩)
              (FailState_cons_ne (by decide) ht) (FailState_cons_ne (by decide) hs)
              (FailState_cons_ne (by decide) hl)
          | some e =>
            rcases BadState_cons_self hd with ⟨hacc, _, hdec⟩ |
              ⟨hacc, hc1, ⟨x, hx⟩, hdup⟩ | ⟨x, hacc, hdup⟩
            · subst hacc
              rw [visitEntryMap_cons, if_neg (by decide), if_neg (by decide),
                if_pos rfl, hdec]
              exact ⟨e, rfl, Or.inr (Or.inr (Or.inl rfl))⟩
            · subst hacc
              rw [visitEntryMap_cons, if_neg (by decide), if_neg (by decide),
                if_pos rfl, hx]
              exact ih kA nA (some x) tA sA lA (FailState_cons_ne (by decide) hk)
                (FailState_cons_ne (by decide) hn)
                (Or.inr (Or.inr ⟨x, rfl, by omega, hdup⟩))
                (FailState_cons_ne (by decide) ht) (FailState_cons_ne (by decide) hs)
                (FailState_cons_ne (by decide) hl)
            · subst hacc
              rw [visitEntryMap_cons, if_neg (by decide), if_neg (by decide),
                if_pos rfl]
              exact ⟨e, by rw [hdup], Or.inr (Or.inr (Or.inl rfl))⟩
        · by_cases hg4 : g = "tools"
          · subst hg4
            cases eT with
            | none =>
              obtain ⟨hacc, hc0, x, hx⟩ := OkState_cons_self ht
              subst hacc
              rw [visitEntryMap_cons, if_neg (by decide), if_neg (by decide),
                if_neg (by decide), if_pos rfl, hx]
              exact ih kA nA dA (some x) sA lA (FailState_cons_ne (by decide) hk)
                (FailState_cons_ne (by decide) hn) (FailState_cons_ne (by decide) hd)
                (Or.inl ⟨x, rfl, hc0⟩)
                (FailState_cons_ne (by decide) hs) (FailState_cons_ne (by decide) hl)
            | some e =>
              rcases BadState_cons_self ht with ⟨hacc, _, hdec⟩ |
                ⟨hacc, hc1, ⟨x, hx⟩, hdup⟩ | ⟨x, hacc, hdup⟩
              · subst hacc
                rw [visitEntryMap_cons, if_neg (by decide), if_neg (by decide),
                  if_neg (by decide), if_pos rfl, hdec]
                exact ⟨e, rfl, Or.inr (Or.inr (Or.inr (Or.inl rfl)))⟩
              · subst hacc
                rw [visitEntryMap_cons, if_neg (by decide), if_neg (by decide),
                  if_neg (by decide), if_pos rfl, hx]
                exact ih kA nA dA (some x) sA lA (FailState_cons_ne (by decide) hk)
                  (FailState_cons_ne (by decide) hn) (FailState_cons_ne (by decide) hd)
                  (Or.inr (Or.inr ⟨x, rfl, by omega, hdup⟩))
                  (FailState_cons_ne (by decide) hs) (FailState_cons_ne (by decide) hl)
              · subst hacc
                rw [visitEntryMap_cons, if_neg (by decide), if_neg (by decide),
                  if_neg (by decide), if_pos rfl]
                exact ⟨e, by rw [hdup], Or.inr (Or.inr (Or.inr (Or.inl rfl)))⟩
          · by_cases hg5 : g = "screen"
            · subst hg5
              cases eS with
              | none =>
                obtain ⟨hacc, hc0, x, hx⟩ := OkState_cons_self hs
                subst hacc
                rw [visitEntryMap_cons, if_neg (by decide), if_neg (by decide),
                  if_neg (by decide), if_neg (by decide), if_pos rfl, hx]
                exact ih kA nA dA tA (some x) lA (FailState_cons_ne (by decide) hk)
                  (FailState_cons_ne (by decide) hn) (FailState_cons_ne (by decide) hd)
                  (FailState_cons_ne (by decide) ht) (Or.inl ⟨x, rfl, hc0⟩)
                  (FailState_cons_ne (by decide) hl)
              | some e =>
                rcases BadState_cons_self hs with ⟨hacc, _, hdec⟩ |
                  ⟨hacc, hc1, ⟨x, hx⟩, hdup⟩ | ⟨x, hacc, hdup⟩
                · subst hacc
                  rw [visitEntryMap_cons, if_neg (by decide), if_neg (by decide),
                    if_neg (by decide), if_neg (by decide), if_pos rfl, hdec]
                  exact ⟨e, rfl, Or.inr (Or.inr (Or.inr (Or.inr (Or.inl rfl))))⟩
                · subst hacc
                  rw [visitEntryMap_cons, if_neg (by decide), if_neg (by decide),
                    if_neg (by decide), if_neg (by decide), if_pos rfl, hx]
                  exact ih kA nA dA tA (some x) lA (FailState_cons_ne (by decide) hk)
                    (FailState_cons_ne (by decide) hn) (FailState_cons_ne (by decide) hd)
                    (FailState_cons_ne (by decide) ht)
                    (Or.inr (Or.inr ⟨x, rfl, by omega, hdup⟩))
                    (FailState_cons_ne (by decide) hl)
                · subst hacc
                  rw [visitEntryMap_cons, if_neg (by decide), if_neg (by decide),
                    if_neg (by decide), if_neg (by decide), if_pos rfl]
                  exact ⟨e, by rw [hdup], Or.inr (Or.inr (Or.inr (Or.inr (Or.inl rfl))))⟩
            · by_cases hg6 : g = "link"
              · subst hg6
                cases eL with
                | none =>
                  obtain ⟨hacc, hc0, x, hx⟩ := OkState_cons_self hl
                  subst hacc
                  rw [visitEntryMap_cons, if_neg (by decide), if_neg (by decide),
                    if_neg (by decide), if_neg (by decide), if_neg (by decide),
                    if_pos rfl, hx]
                  exact ih kA nA dA tA sA (some x) (FailState_cons_ne (by decide) hk)
                    (FailState_cons_ne (by decide) hn) (FailState_cons_ne (by decide) hd)
                    (FailState_cons_ne (by decide) ht) (FailState_cons_ne (by decide) hs)
                    (Or.inl ⟨x, rfl, hc0⟩)
                | some e =>
                  rcases BadState_cons_self hl with ⟨hacc, _, hdec⟩ |
                    ⟨hacc, hc1, ⟨x, hx⟩, hdup⟩ | ⟨x, hacc, hdup⟩
                  · subst hacc
                    rw [visitEntryMap_cons, if_neg (by decide), if_neg (by decide),
                      if_neg (by decide), if_neg (by decide), if_neg (by decide),
                      if_pos rfl, hdec]
                    exact ⟨e, rfl, Or.inr (Or.inr (Or.inr (Or.inr (Or.inr rfl))))⟩
                  · subst hacc
                    rw [visitEntryMap_cons, if_neg (by decide), if_neg (by decide),
                      if_neg (by decide), if_neg (by decide), if_neg (by decide),
                      if_pos rfl, hx]
                    exact ih kA nA dA tA sA (some x) (FailState_cons_ne (by decide) hk)
                      (FailState_cons_ne (by decide) hn) (FailState_cons_ne (by decide) hd)
                      (FailState_cons_ne (by decide) ht) (FailState_cons_ne (by decide) hs)
                      (Or.inr (Or.inr ⟨x, rfl, by omega, hdup⟩))
                  · subst hacc
                    rw [visitEntryMap_cons, if_neg (by decide), if_neg (by decide),
                      if_neg (by decide), if_neg (by decide), if_neg (by decide),
                      if_pos rfl]
                    exact ⟨e, by rw [hdup], Or.inr (Or.inr (Or.inr (Or.inr (Or.inr rfl))))⟩
              · rw [visitEntryMap_cons, if_neg hg1, if_neg hg2, if_neg hg3,
                  if_neg hg4, if_neg hg5, if_neg hg6]
                exact ih kA nA dA tA sA lA (FailState_cons_ne hg1 hk)
                  (FailState_cons_ne hg2 hn) (FailState_cons_ne hg3 hd)
                  (FailState_cons_ne hg4 ht) (FailState_cons_ne hg5 hs)
                  (FailState_cons_ne hg6 hl)

lemma lookupField_none {ms : List (String × Json)} {f : String}
    (hc : countField ms f = 0) : lookupField ms f = none := by
  induction ms with
  | nil => rfl
  | cons p rest ih =>
    obtain ⟨g, v⟩ := p
    rw [countField_cons] at hc
    by_cases hg : g = f
    · rw [if_pos hg] at hc; omega
    · rw [if_neg hg] at hc
      rw [lookupField_cons, if_neg hg]
      exact ih (by omega)

lemma GoodField_str {ms : List (String × Json)} {g : String} {s : String}
    (hg : ¬ g = "key") (hc : countField ms g = 1)
    (hv : lookupField ms g = some (.str s)) : GoodField ms g :=
  ⟨hc, .str s, hv, by rw [fieldOk, if_neg hg]; exact ⟨s, rfl⟩⟩

lemma GoodField_key {ms : List (String × Json)} {n : Int}
    (hc : countField ms "key" = 1) (hv : lookupField ms "key" = some (.num n))
    (h0 : 0 ≤ n) (h1 : n < 4294967296) : GoodField ms "key" :=
  ⟨hc, .num n, hv, by
    rw [fieldOk, if_pos rfl]
    exact ⟨⟨n.toNat, by omega⟩, by rw [decodeU32, dif_pos ⟨h0, h1⟩]⟩⟩

lemma GoodField_toOpt {ms : List (String × Json)} {g : String}
    (h : GoodField ms g) :
    countField ms g ≤ 1 ∧ ∀ w, lookupField ms g = some w → fieldOk g w := by
  obtain ⟨hc, v0, hv0, hok⟩ := h
  refine ⟨by omega, fun w hw => ?_⟩
  rw [hv0] at hw
  have hvw : v0 = w := by injection hw
  rwa [hvw] at hok

lemma OkState_of_optStr {ms : List (String × Json)} {g : String}
    (hg : ¬ g = "key")
    (h : countField ms g ≤ 1 ∧ ∀ w, lookupField ms g = some w → fieldOk g w) :
    OkState String decodeString ms g none :=
  Or.inr ⟨rfl, h.1, fun w hw => by
    have h2 := h.2 w hw; rwa [fieldOk, if_neg hg] at h2⟩

lemma OkState_of_optKey {ms : List (String × Json)}
    (h : countField ms "key" ≤ 1 ∧ ∀ w, lookupField ms "key" = some w → fieldOk "key" w) :
    OkState U32 decodeU32 ms "key" none :=
  Or.inr ⟨rfl, h.1, fun w hw => by
    have h2 := h.2 w hw; rwa [fieldOk, if_pos rfl] at h2⟩

/-- The element loop stops with the error of the first failing element. -/
lemma decodeEntries_err {e : DecodeError} (objs : List Json) (i : ℕ)
    (hi : i < objs.length)
    (hprev : ∀ j (hj : j < objs.length), j < i →
      ∃ ej, decodeJobEntry (objs.get ⟨j, hj⟩) = .ok ej)
    (herr : decodeJobEntry (objs.get ⟨i, hi⟩) = .error e) :
    decodeEntries objs = .error e := by
  induction objs generalizing i with
  | nil => simp at hi
  | cons o rest ih =>
    match i with
    | 0 =>
      have herr2 : decodeJobEntry o = .error e := herr
      rw [decodeEntries, herr2]
    | j + 1 =>
      obtain ⟨e0, he0⟩ := hprev 0 (by simp) (by omega)
      have he0b : decodeJobEntry o = .ok e0 := he0
      rw [decodeEntries, he0b,
        ih j (by simpa using hi)
          (fun j2 hj2 hlt =>
            hprev (j2 + 1) (by simpa using hj2) (by omega))
          herr]

/-- A failing element makes the whole decode fail with that element's
error, provided the elements before it decode. -/
lemma decodeJobData_entry_err {e : DecodeError} (rms : List (String × Json))
    (objs : List Json) (i : ℕ) (hi : i < objs.length)
    (hc : countField rms "entries" = 1)
    (hv : lookupField rms "entries" = some (.arr objs))
    (hprev : ∀ j (hj : j < objs.length), j < i →
      ∃ ej, decodeJobEntry (objs.get ⟨j, hj⟩) = .ok ej)
    (herr : decodeJobEntry (objs.get ⟨i, hi⟩) = .error e) :
    decodeJobData (.obj rms) = .error e := by
  rw [decodeJobData, visitDataMap_once rms _ hc hv]
  have harr : decodeEntryList (.arr objs) = .error e := by
    rw [decodeEntryList]
    exact decodeEntries_err objs i hi hprev herr
  rw [harr]

/-- A valid entry object decodes (to something). -/
lemma ValidEntryObj_decodes {o : Json} (h : ValidEntryObj o) :
    ∃ e, decodeJobEntry o = .ok e := by
  obtain ⟨ms, rfl, hcnt, e, hview⟩ := h
  exact ⟨e, decodeJobEntry_of_view ms e hcnt hview⟩

lemma decode_encode_entry (e : JobEntry) :
    decodeJobEntry (encodeJobEntry e) = .ok e :=
  decodeJobEntry_of_view _ e (by intro f hf; fin_cases hf <;> rfl)
    ⟨rfl, rfl, rfl, rfl, rfl, rfl⟩

lemma decodeEntries_encode (es : List JobEntry) :
    decodeEntries (es.map encodeJobEntry) = .ok es := by
  induction es with
  | nil => rfl
  | cons e rest ih =>
    rw [List.map_cons, decodeEntries, decode_encode_entry, ih]

/-- The spec's concrete scenario: one welder entry, as raw members. -/
def welderMembers : List (String × Json) :=
  [("key", .num 1), ("name", .str "Welder"),
   ("details", .str "Joins metal parts"), ("tools", .str "torch, mask"),
   ("screen", .str "Fabrication"), ("link", .str "https://example.com/welder")]

/-- The spec's concrete scenario entry object. -/
def welderObj : Json := .obj welderMembers

/-- The welder entry as a decoded record. -/
def welderEntry : JobEntry :=
  ⟨1, "Welder", "Joins metal parts", "torch, mask", "Fabrication",
   "https://example.com/welder"⟩

lemma welderObj_valid : ValidEntryObj welderObj :=
  ⟨welderMembers, rfl, by intro f hf; fin_cases hf <;> rfl,
   welderEntry, rfl, rfl, rfl, rfl, rfl, rfl⟩

/-- C1: every valid raw payload — a root object whose single `entries`
member holds a list of objects, each carrying the six fields once with the
right kinds — decodes successfully to a collection of the same length whose
i-th entry takes its six field values verbatim from the i-th object. -/
theorem claim1_decode_valid (rms : List (String × Json)) (objs : List Json)
    (hc : countField rms "entries" = 1)
    (hv : lookupField rms "entries" = some (.arr objs))
    (hval : ∀ o ∈ objs, ValidEntryObj o) :
    ∃ d, decodeJobData (.obj rms) = .ok d ∧
      d.entries.length = objs.length ∧
      ∀ i (hi : i < objs.length) (hi2 : i < d.entries.length),
        ∃ ms, objs.get ⟨i, hi⟩ = .obj ms ∧
          EntryView ms (d.entries.get ⟨i, hi2⟩) := by
  have hobjs : ∀ o ∈ objs, ∃ e, decodeJobEntry o = .ok e ∧
      (∃ ms, o = .obj ms ∧ EntryView ms e) := by
    intro o ho
    obtain ⟨ms, rfl, hcnt, e, hview⟩ := hval o ho
    exact ⟨e, decodeJobEntry_of_view ms e hcnt hview, ms, rfl, hview⟩
  obtain ⟨es, hes, hlen, hrel⟩ := decodeEntries_ok objs hobjs
  refine ⟨⟨es⟩, ?_, hlen, hrel⟩
  rw [decodeJobData, visitDataMap_once rms _ hc hv]
  have harr : decodeEntryList (.arr objs) = .ok es := by
    rw [decodeEntryList]; exact hes
  rw [harr]

/-- C1 witness: the spec's concrete scenario decodes as described. -/
theorem claim1_decode_valid_witness :
    ∃ d, decodeJobData (.obj [("entries", .arr [welderObj])]) = .ok d ∧
      d.entries.length = [welderObj].length ∧
      ∀ i (hi : i < [welderObj].length) (hi2 : i < d.entries.length),
        ∃ ms, [welderObj].get ⟨i, hi⟩ = .obj ms ∧
          EntryView ms (d.entries.get ⟨i, hi2⟩) :=
  claim1_decode_valid [("entries", .arr [welderObj])] [welderObj] rfl rfl
    (by intro o ho
        have ho2 : o = welderObj := by simpa using ho
        rw [ho2]
        exact welderObj_valid)

/-- C5 counterexample: with `entries` present but bound to the number `0`,
decode fails with the same invalid-type (TypeMismatch) error class used for
wrong-kind fields, not with a missing-field error naming `entries`; the
claim's `MissingCollectionField` classification does not hold for the
not-a-list case. -/
theorem claim5_counterexample :
    decodeJobData (.obj [("entries", .num 0)]) =
      .error (.invalidType "a sequence") ∧
    (DecodeError.invalidType "a sequence").isMissingField = false ∧
    (DecodeError.invalidType "a sequence").isTypeMismatch = true ∧
    DecodeError.invalidType "a sequence" ≠ DecodeError.missingField "entries" :=
  ⟨rfl, rfl, rfl, by decide⟩

/-- C5 amended: if the top-level `entries` member is absent, decode fails
with the missing-field error naming `entries`; if it is present but not a
list, decode fails with the invalid-type (TypeMismatch) error expecting a
sequence. -/
theorem claim5_amended (rms : List (String × Json)) (v : Json)
    (h : countField rms "entries" = 0 ∨
      (countField rms "entries" = 1 ∧ lookupField rms "entries" = some v ∧
        ∀ es : List Json, v ≠ .arr es)) :
    decodeJobData (.obj rms) =
      (if countField rms "entries" = 0 then .error (.missingField "entries")
       else .error (.invalidType "a sequence")) := by
  rcases h with h0 | ⟨h1, hv, hnotarr⟩
  · rw [if_pos h0, decodeJobData]
    exact visitDataMap_missing rms h0
  · rw [if_neg (by omega), decodeJobData, visitDataMap_once rms v h1 hv]
    have hseq : decodeEntryList v = .error (.invalidType "a sequence") := by
      cases v
      case arr es => exact absurd rfl (hnotarr es)
      all_goals rfl
    rw [hseq]

/-- C5 amended, witness: `entries` bound to `true` is rejected with the
invalid-type error. -/
theorem claim5_amended_witness :
    decodeJobData (.obj [("entries", .bool true)]) =
      (if countField [(("entries" : String), Json.bool true)] "entries" = 0
       then .error (.missingField "entries")
       else .error (.invalidType "a sequence")) :=
  claim5_amended [("entries", .bool true)] (.bool true)
    (Or.inr ⟨rfl, rfl, by intro es h; cases h⟩)

/-- C6: a payload whose `entries` member is the empty list decodes
successfully to the collection with zero entries. -/
theorem claim6_empty_collection (rms : List (String × Json))
    (hc : countField rms "entries" = 1)
    (hv : lookupField rms "entries" = some (.arr [])) :
    decodeJobData (.obj rms) = .ok ⟨[]⟩ := by
  rw [decodeJobData, visitDataMap_once rms _ hc hv]
  rfl

/-- C6 witness: the literal empty-entries payload decodes to the empty
collection. -/
theorem claim6_empty_collection_witness :
    decodeJobData (.obj [("entries", .arr [])]) = .ok ⟨[]⟩ :=
  claim6_empty_collection [("entries", .arr [])] rfl rfl

/-- C8 (round-trip, encoder modelled from the spec since the source derives
only deserialization): encoding any collection and decoding the result
yields the same collection, field for field, order preserved. -/
theorem claim8_roundtrip (d : JobData) :
    decodeJobData (encodeJobData d) = .ok d := by
  obtain ⟨es⟩ := d
  show decodeJobData (.obj [("entries", .arr (es.map encodeJobEntry))]) = .ok ⟨es⟩
  rw [decodeJobData, visitDataMap_cons, if_pos rfl]
  have harr : decodeEntryList (.arr (es.map encodeJobEntry)) = .ok es := by
    rw [decodeEntryList]; exact decodeEntries_encode es
  rw [harr]
  exact visitDataMap_done [] es rfl

/-- C9: decoding is a pure function of its input — equal raw payloads give
equal results. -/
theorem claim9_deterministic (a b : Json) (h : a = b) :
    decodeJobData a = decodeJobData b := by rw [h]

/-- C9 witness. -/
theorem claim9_deterministic_witness :
    decodeJobData (.obj [("entries", .arr [])]) =
      decodeJobData (.obj [("entries", .arr [])]) :=
  claim9_deterministic (.obj [("entries", .arr [])])
    (.obj [("entries", .arr [])]) rfl

/-- C2: a payload in which some entry object omits one of the six required
fields (the remaining fields and entries being well formed) fails to decode
with the missing-field error naming that field — no default is substituted;
this holds for each of the six fields. -/
theorem claim2_missing_field (rms : List (String × Json)) (objs : List Json)
    (i : ℕ) (hi : i < objs.length) (ms : List (String × Json)) (f : String)
    (hc : countField rms "entries" = 1)
    (hv : lookupField rms "entries" = some (.arr objs))
    (hobj : objs.get ⟨i, hi⟩ = .obj ms)
    (hf : f ∈ entryFieldNames)
    (habs : countField ms f = 0)
    (hothers : ∀ g ∈ entryFieldNames, g ≠ f → GoodField ms g)
    (hrest : ∀ j (hj : j < objs.length), j ≠ i → ValidEntryObj (objs.get ⟨j, hj⟩)) :
    decodeJobData (.obj rms) = .error (.missingField f) := by
  have hentry : decodeJobEntry (.obj ms) = .error (.missingField f) := by
    simp only [entryFieldNames, List.mem_cons, List.not_mem_nil, or_false] at hf
    rcases hf with rfl | rfl | rfl | rfl | rfl | rfl
    · obtain ⟨sn, Fn⟩ := FState_goodString
        (hothers "name" (by simp [entryFieldNames]) (by decide)) (by decide)
      obtain ⟨sd, Fd⟩ := FState_goodString
        (hothers "details" (by simp [entryFieldNames]) (by decide)) (by decide)
      obtain ⟨st, Ft⟩ := FState_goodString
        (hothers "tools" (by simp [entryFieldNames]) (by decide)) (by decide)
      obtain ⟨ss, Fs⟩ := FState_goodString
        (hothers "screen" (by simp [entryFieldNames]) (by decide)) (by decide)
      obtain ⟨sl, Fl⟩ := FState_goodString
        (hothers "link" (by simp [entryFieldNames]) (by decide)) (by decide)
      rw [decodeJobEntry, visitEntryMap_char ms none none none (some sn)
        none (some sd) none (some st) none (some ss) none (some sl)
        (FState_absent habs) Fn Fd Ft Fs Fl]
      rfl
    · obtain ⟨xk, Fk⟩ := FState_goodKey
        (hothers "key" (by simp [entryFieldNames]) (by decide))
      obtain ⟨sd, Fd⟩ := FState_goodString
        (hothers "details" (by simp [entryFieldNames]) (by decide)) (by decide)
      obtain ⟨st, Ft⟩ := FState_goodString
        (hothers "tools" (by simp [entryFieldNames]) (by decide)) (by decide)
      obtain ⟨ss, Fs⟩ := FState_goodString
        (hothers "screen" (by simp [entryFieldNames]) (by decide)) (by decide)
      obtain ⟨sl, Fl⟩ := FState_goodString
        (hothers "link" (by simp [entryFieldNames]) (by decide)) (by decide)
      rw [decodeJobEntry, visitEntryMap_char ms none (some xk) none none
        none (some sd) none (some st) none (some ss) none (some sl)
        Fk (FState_absent habs) Fd Ft Fs Fl]
      rfl
    · obtain ⟨xk, Fk⟩ := FState_goodKey
        (hothers "key" (by simp [entryFieldNames]) (by decide))
      obtain ⟨sn, Fn⟩ := FState_goodString
        (hothers "name" (by simp [entryFieldNames]) (by decide)) (by decide)
      obtain ⟨st, Ft⟩ := FState_goodString
        (hothers "tools" (by simp [entryFieldNames]) (by decide)) (by decide)
      obtain ⟨ss, Fs⟩ := FState_goodString
        (hothers "screen" (by simp [entryFieldNames]) (by decide)) (by decide)
      obtain ⟨sl, Fl⟩ := FState_goodString
        (hothers "link" (by simp [entryFieldNames]) (by decide)) (by decide)
      rw [decodeJobEntry, visitEntryMap_char ms none (some xk) none (some sn)
        none none none (some st) none (some ss) none (some sl)
        Fk Fn (FState_absent habs) Ft Fs Fl]
      rfl
    · obtain ⟨xk, Fk⟩ := FState_goodKey
        (hothers "key" (by simp [entryFieldNames]) (by decide))
      obtain ⟨sn, Fn⟩ := FState_goodString
        (hothers "name" (by simp [entryFieldNames]) (by decide)) (by decide)
      obtain ⟨sd, Fd⟩ := FState_goodString
        (hothers "details" (by simp [entryFieldNames]) (by decide)) (by decide)
      obtain ⟨ss, Fs⟩ := FState_goodString
        (hothers "screen" (by simp [entryFieldNames]) (by decide)) (by decide)
      obtain ⟨sl, Fl⟩ := FState_goodString
        (hothers "link" (by simp [entryFieldNames]) (by decide)) (by decide)
      rw [decodeJobEntry, visitEntryMap_char ms none (some xk) none (some sn)
        none (some sd) none none none (some ss) none (some sl)
        Fk Fn Fd (FState_absent habs) Fs Fl]
      rfl
    · obtain ⟨xk, Fk⟩ := FState_goodKey
        (hothers "key" (by simp [entryFieldNames]) (by decide))
      obtain ⟨sn, Fn⟩ := FState_goodString
        (hothers "name" (by simp [entryFieldNames]) (by decide)) (by decide)
      obtain ⟨sd, Fd⟩ := FState_goodString
        (hothers "details" (by simp [entryFieldNames]) (by decide)) (by decide)
      obtain ⟨st, Ft⟩ := FState_goodString
        (hothers "tools" (by simp [entryFieldNames]) (by decide)) (by decide)
      obtain ⟨sl, Fl⟩ := FState_goodString
        (hothers "link" (by simp [entryFieldNames]) (by decide)) (by decide)
      rw [decodeJobEntry, visitEntryMap_char ms none (some xk) none (some sn)
        none (some sd) none (some st) none none none (some sl)
        Fk Fn Fd Ft (FState_absent habs) Fl]
      rfl
    · obtain ⟨xk, Fk⟩ := FState_goodKey
        (hothers "key" (by simp [entryFieldNames]) (by decide))
      obtain ⟨sn, Fn⟩ := FState_goodString
        (hothers "name" (by simp [entryFieldNames]) (by decide)) (by decide)
      obtain ⟨sd, Fd⟩ := FState_goodString
        (hothers "details" (by simp [entryFieldNames]) (by decide)) (by decide)
      obtain ⟨st, Ft⟩ := FState_goodString
        (hothers "tools" (by simp [entryFieldNames]) (by decide)) (by decide)
      obtain ⟨ss, Fs⟩ := FState_goodString
        (hothers "screen" (by simp [entryFieldNames]) (by decide)) (by decide)
      rw [decodeJobEntry, visitEntryMap_char ms none (some xk) none (some sn)
        none (some sd) none (some st) none (some ss) none none
        Fk Fn Fd Ft Fs (FState_absent habs)]
      rfl
  exact decodeJobData_entry_err rms objs i hi hc hv
    (fun j hj hlt => ValidEntryObj_decodes (hrest j hj (by omega)))
    (by rw [hobj]; exact hentry)

/-- C2 witness: the payload whose only entry omits `key` is rejected with
the missing-field error for `key`. -/
theorem claim2_missing_field_witness :
    decodeJobData (.obj [("entries", .arr [.obj
      [("name", .str "a"), ("details", .str "b"), ("tools", .str "c"),
       ("screen", .str "d"), ("link", .str "e")]])]) =
      .error (.missingField "key") :=
  claim2_missing_field _ _ 0 (by decide) _ "key" rfl rfl rfl
    (by simp [entryFieldNames]) rfl
    (by intro g hg hne
        fin_cases hg
        · exact absurd rfl hne
        · exact GoodField_str (by decide) rfl rfl
        · exact GoodField_str (by decide) rfl rfl
        · exact GoodField_str (by decide) rfl rfl
        · exact GoodField_str (by decide) rfl rfl
        · exact GoodField_str (by decide) rfl rfl)
    (by intro j hj hne
        have hj0 : j = 0 := by simpa using hj
        exact absurd hj0 hne)

/-- The error a field's decoder raises on a value, if any: `key` uses the
`u32` decoder, every other field the string decoder. -/
def fieldErr (f : String) (v : Json) : Option DecodeError :=
  if f = "key" then
    match decodeU32 v with
    | .error e => some e
    | .ok _ => none
  else
    match decodeString v with
    | .error e => some e
    | .ok _ => none

/-- C3: a payload in which some entry carries a field of the wrong kind
(each field occurring at most once, the other fields and entries being well
formed) fails to decode as a whole with that field's invalid-type
(TypeMismatch) error — no per-entry partial success. -/
theorem claim3_type_mismatch (rms : List (String × Json)) (objs : List Json)
    (i : ℕ) (hi : i < objs.length) (ms : List (String × Json)) (f : String)
    (v : Json) (e : DecodeError)
    (hc : countField rms "entries" = 1)
    (hv : lookupField rms "entries" = some (.arr objs))
    (hobj : objs.get ⟨i, hi⟩ = .obj ms)
    (hf : f ∈ entryFieldNames)
    (hcf : countField ms f = 1)
    (hvf : lookupField ms f = some v)
    (herr : fieldErr f v = some e)
    (hty : e.isTypeMismatch = true)
    (hothers : ∀ g ∈ entryFieldNames, g ≠ f →
      countField ms g ≤ 1 ∧ ∀ w, lookupField ms g = some w → fieldOk g w)
    (hrest : ∀ j (hj : j < objs.length), j ≠ i → ValidEntryObj (objs.get ⟨j, hj⟩)) :
    decodeJobData (.obj rms) = .error e ∧ e.isTypeMismatch = true := by
  refine ⟨?_, hty⟩
  have hentry : decodeJobEntry (.obj ms) = .error e := by
    simp only [entryFieldNames, List.mem_cons, List.not_mem_nil, or_false] at hf
    rcases hf with rfl | rfl | rfl | rfl | rfl | rfl
    · have hdec : decodeU32 v = .error e := by
        rw [fieldErr, if_pos rfl] at herr
        cases hd2 : decodeU32 v with
        | error e3 => rw [hd2] at herr; injection herr with h3; rw [h3]
        | ok x => rw [hd2] at herr; exact Option.noConfusion herr
      obtain ⟨e2, he2, hdisj⟩ := visitEntryMap_fails ms none none none none none none
        (some e) none none none none none
        (Or.inl ⟨rfl, hcf, v, hvf, hdec⟩)
        (OkState_of_optStr (by decide) (hothers "name" (by simp [entryFieldNames]) (by decide)))
        (OkState_of_optStr (by decide) (hothers "details" (by simp [entryFieldNames]) (by decide)))
        (OkState_of_optStr (by decide) (hothers "tools" (by simp [entryFieldNames]) (by decide)))
        (OkState_of_optStr (by decide) (hothers "screen" (by simp [entryFieldNames]) (by decide)))
        (OkState_of_optStr (by decide) (hothers "link" (by simp [entryFieldNames]) (by decide)))
        (by simp)
      have he3 : e2 = e := by
        rcases hdisj with h | h | h | h | h | h
        · injection h with h4; rw [h4]
        all_goals exact Option.noConfusion h
      rw [decodeJobEntry, he2, he3]
    · have hdec : decodeString v = .error e := by
        rw [fieldErr, if_neg (by decide)] at herr
        cases hd2 : decodeString v with
        | error e3 => rw [hd2] at herr; injection herr with h3; rw [h3]
        | ok x => rw [hd2] at herr; exact Option.noConfusion herr
      obtain ⟨e2, he2, hdisj⟩ := visitEntryMap_fails ms none none none none none none
        none (some e) none none none none
        (OkState_of_optKey (hothers "key" (by simp [entryFieldNames]) (by decide)))
        (Or.inl ⟨rfl, hcf, v, hvf, hdec⟩)
        (OkState_of_optStr (by decide) (hothers "details" (by simp [entryFieldNames]) (by decide)))
        (OkState_of_optStr (by decide) (hothers "tools" (by simp [entryFieldNames]) (by decide)))
        (OkState_of_optStr (by decide) (hothers "screen" (by simp [entryFieldNames]) (by decide)))
        (OkState_of_optStr (by decide) (hothers "link" (by simp [entryFieldNames]) (by decide)))
        (by simp)
      have he3 : e2 = e := by
        rcases hdisj with h | h | h | h | h | h
        · exact Option.noConfusion h
        · injection h with h4; rw [h4]
        all_goals exact Option.noConfusion h
      rw [decodeJobEntry, he2, he3]
    · have hdec : decodeString v = .error e := by
        rw [fieldErr, if_neg (by decide)] at herr
        cases hd2 : decodeString v with
        | error e3 => rw [hd2] at herr; injection herr with h3; rw [h3]
        | ok x => rw [hd2] at herr; exact Option.noConfusion herr
      obtain ⟨e2, he2, hdisj⟩ := visitEntryMap_fails ms none none none none none none
        none none (some e) none none none
        (OkState_of_optKey (hothers "key" (by simp [entryFieldNames]) (by decide)))
        (OkState_of_optStr (by decide) (hothers "name" (by simp [entryFieldNames]) (by decide)))
        (Or.inl ⟨rfl, hcf, v, hvf, hdec⟩)
        (OkState_of_optStr (by decide) (hothers "tools" (by simp [entryFieldNames]) (by decide)))
        (OkState_of_optStr (by decide) (hothers "screen" (by simp [entryFieldNames]) (by decide)))
        (OkState_of_optStr (by decide) (hothers "link" (by simp [entryFieldNames]) (by decide)))
        (by simp)
      have he3 : e2 = e := by
        rcases hdisj with h | h | h | h | h | h
        · exact Option.noConfusion h
        · exact Option.noConfusion h
        · injection h with h4; rw [h4]
        all_goals exact Option.noConfusion h
      rw [decodeJobEntry, he2, he3]
    · have hdec : decodeString v = .error e := by
        rw [fieldErr, if_neg (by decide)] at herr
        cases hd2 : decodeString v with
        | error e3 => rw [hd2] at herr; injection herr with h3; rw [h3]
        | ok x => rw [hd2] at herr; exact Option.noConfusion herr
      obtain ⟨e2, he2, hdisj⟩ := visitEntryMap_fails ms none none none none none none
        none none none (some e) none none
        (OkState_of_optKey (hothers "key" (by simp [entryFieldNames]) (by decide)))
        (OkState_of_optStr (by decide) (hothers "name" (by simp [entryFieldNames]) (by decide)))
        (OkState_of_optStr (by decide) (hothers "details" (by simp [entryFieldNames]) (by decide)))
        (Or.inl ⟨rfl, hcf, v, hvf, hdec⟩)
        (OkState_of_optStr (by decide) (hothers "screen" (by simp [entryFieldNames]) (by decide)))
        (OkState_of_optStr (by decide) (hothers "link" (by simp [entryFieldNames]) (by decide)))
        (by simp)
      have he3 : e2 = e := by
        rcases hdisj with h | h | h | h | h | h
        · exact Option.noConfusion h
        · exact Option.noConfusion h
        · exact Option.noConfusion h
        · injection h with h4; rw [h4]
        all_goals exact Option.noConfusion h
      rw [decodeJobEntry, he2, he3]
    · have hdec : decodeString v = .error e := by
        rw [fieldErr, if_neg (by decide)] at herr
        cases hd2 : decodeString v with
        | error e3 => rw [hd2] at herr; injection herr with h3; rw [h3]
        | ok x => rw [hd2] at herr; exact Option.noConfusion herr
      obtain ⟨e2, he2, hdisj⟩ := visitEntryMap_fails ms none none none none none none
        none none none none (some e) none
        (OkState_of_optKey (hothers "key" (by simp [entryFieldNames]) (by decide)))
        (OkState_of_optStr (by decide) (hothers "name" (by simp [entryFieldNames]) (by decide)))
        (OkState_of_optStr (by decide) (hothers "details" (by simp [entryFieldNames]) (by decide)))
        (OkState_of_optStr (by decide) (hothers "tools" (by simp [entryFieldNames]) (by decide)))
        (Or.inl ⟨rfl, hcf, v, hvf, hdec⟩)
        (OkState_of_optStr (by decide) (hothers "link" (by simp [entryFieldNames]) (by decide)))
        (by simp)
      have he3 : e2 = e := by
        rcases hdisj with h | h | h | h | h | h
        · exact Option.noConfusion h
        · exact Option.noConfusion h
        · exact Option.noConfusion h
        · exact Option.noConfusion h
        · injection h with h4; rw [h4]
        · exact Option.noConfusion h
      rw [decodeJobEntry, he2, he3]
    · have hdec : decodeString v = .error e := by
        rw [fieldErr, if_neg (by decide)] at herr
        cases hd2 : decodeString v with
        | error e3 => rw [hd2] at herr; injection herr with h3; rw [h3]
        | ok x => rw [hd2] at herr; exact Option.noConfusion herr
      obtain ⟨e2, he2, hdisj⟩ := visitEntryMap_fails ms none none none none none none
        none none none none none (some e)
        (OkState_of_optKey (hothers "key" (by simp [entryFieldNames]) (by decide)))
        (OkState_of_optStr (by decide) (hothers "name" (by simp [entryFieldNames]) (by decide)))
        (OkState_of_optStr (by decide) (hothers "details" (by simp [entryFieldNames]) (by decide)))
        (OkState_of_optStr (by decide) (hothers "tools" (by simp [entryFieldNames]) (by decide)))
        (OkState_of_optStr (by decide) (hothers "screen" (by simp [entryFieldNames]) (by decide)))
        (Or.inl ⟨rfl, hcf, v, hvf, hdec⟩)
        (by simp)
      have he3 : e2 = e := by
        rcases hdisj with h | h | h | h | h | h
        · exact Option.noConfusion h
        · exact Option.noConfusion h
        · exact Option.noConfusion h
        · exact Option.noConfusion h
        · exact Option.noConfusion h
        · injection h with h4; rw [h4]
      rw [decodeJobEntry, he2, he3]
  exact decodeJobData_entry_err rms objs i hi hc hv
    (fun j hj hlt => ValidEntryObj_decodes (hrest j hj (by omega)))
    (by rw [hobj]; exact hentry)

/-- C3 witness: an entry whose `name` is a number is rejected with the
invalid-type error for a string. -/
theorem claim3_type_mismatch_witness :
    decodeJobData (.obj [("entries", .arr [.obj
      [("key", .num 1), ("name", .num 5), ("details", .str "b"),
       ("tools", .str "c"), ("screen", .str "d"), ("link", .str "e")]])]) =
      .error (.invalidType "a string") ∧
    (DecodeError.invalidType "a string").isTypeMismatch = true :=
  claim3_type_mismatch _ _ 0 (by decide) _ "name" (.num 5)
    (.invalidType "a string") rfl rfl rfl (by simp [entryFieldNames])
    rfl rfl rfl rfl
    (by intro g hg hne
        fin_cases hg
        · exact GoodField_toOpt (GoodField_key rfl rfl (by decide) (by decide))
        · exact absurd rfl hne
        · exact GoodField_toOpt (GoodField_str (by decide) rfl rfl)
        · exact GoodField_toOpt (GoodField_str (by decide) rfl rfl)
        · exact GoodField_toOpt (GoodField_str (by decide) rfl rfl)
        · exact GoodField_toOpt (GoodField_str (by decide) rfl rfl))
    (by intro j hj hne
        have hj0 : j = 0 := by simpa using hj
        exact absurd hj0 hne)

/-- Indexed success of the `Vec<JobEntry>` loop. -/
lemma decodeEntries_ok_idx (objs : List Json)
    (h : ∀ j (hj : j < objs.length), ∃ ej, decodeJobEntry (objs.get ⟨j, hj⟩) = .ok ej) :
    ∃ es, decodeEntries objs = .ok es ∧ es.length = objs.length ∧
      ∀ j (hj : j < objs.length) (hj2 : j < es.length),
        decodeJobEntry (objs.get ⟨j, hj⟩) = .ok (es.get ⟨j, hj2⟩) := by
  induction objs with
  | nil => exact ⟨[], rfl, rfl, by intro j hj _; simp at hj⟩
  | cons o rest ih =>
    obtain ⟨e0, he0⟩ := h 0 (by simp)
    have he0b : decodeJobEntry o = .ok e0 := he0
    obtain ⟨es, hes, hlen, hptw⟩ := ih (fun j hj => h (j + 1) (by simpa using hj))
    refine ⟨e0 :: es, by rw [decodeEntries, he0b, hes], by simp [hlen], ?_⟩
    intro j hj hj2
    match j with
    | 0 => exact he0b
    | j2 + 1 => exact hptw j2 (by simpa using hj) (by simpa using hj2)

/-- C4: an entry's `key` must be a non-negative integer within 32 bits —
with the rest of the payload well formed, decode succeeds for any integral
key in [0, 2^32), carrying the key through unchanged, and fails when the
key is a negative or too-large integer (invalid-value) or not an integer at
all (invalid-type). -/
theorem claim4_key_range (rms : List (String × Json)) (objs : List Json)
    (i : ℕ) (hi : i < objs.length) (ms : List (String × Json)) (v : Json)
    (hc : countField rms "entries" = 1)
    (hv : lookupField rms "entries" = some (.arr objs))
    (hobj : objs.get ⟨i, hi⟩ = .obj ms)
    (hcf : countField ms "key" = 1)
    (hvf : lookupField ms "key" = some v)
    (hothers : ∀ g ∈ entryFieldNames, g ≠ "key" → GoodField ms g)
    (hrest : ∀ j (hj : j < objs.length), j ≠ i → ValidEntryObj (objs.get ⟨j, hj⟩)) :
    (∀ n : Int, v = .num n → 0 ≤ n → n < 4294967296 →
      ∃ d, decodeJobData (.obj rms) = .ok d ∧ d.entries.length = objs.length ∧
        ∀ hi2 : i < d.entries.length, ((d.entries.get ⟨i, hi2⟩).key.val : Int) = n) ∧
    (∀ n : Int, v = .num n → (n < 0 ∨ 4294967296 ≤ n) →
      decodeJobData (.obj rms) = .error (.invalidValue "u32")) ∧
    ((∀ n : Int, v ≠ .num n) → decodeJobData (.obj rms) = .error (.invalidType "u32")) := by
  refine ⟨?_, ?_, ?_⟩
  · rintro n rfl h0 h1
    obtain ⟨sn, Fn⟩ := FState_goodString
      (hothers "name" (by simp [entryFieldNames]) (by decide)) (by decide)
    obtain ⟨sd, Fd⟩ := FState_goodString
      (hothers "details" (by simp [entryFieldNames]) (by decide)) (by decide)
    obtain ⟨st, Ft⟩ := FState_goodString
      (hothers "tools" (by simp [entryFieldNames]) (by decide)) (by decide)
    obtain ⟨ss, Fs⟩ := FState_goodString
      (hothers "screen" (by simp [entryFieldNames]) (by decide)) (by decide)
    obtain ⟨sl, Fl⟩ := FState_goodString
      (hothers "link" (by simp [entryFieldNames]) (by decide)) (by decide)
    have hdec : decodeU32 (.num n) = .ok ⟨n.toNat, by omega⟩ := by
      rw [decodeU32]; exact dif_pos ⟨h0, h1⟩
    have hje : decodeJobEntry (.obj ms) =
        .ok ⟨⟨n.toNat, by omega⟩, sn, sd, st, ss, sl⟩ := by
      rw [decodeJobEntry, visitEntryMap_char ms none (some ⟨n.toNat, by omega⟩)
        none (some sn) none (some sd) none (some st) none (some ss) none (some sl)
        (Or.inr (Or.inl ⟨rfl, hcf, .num n, ⟨n.toNat, by omega⟩, hvf, hdec, rfl⟩))
        Fn Fd Ft Fs Fl]
      rfl
    have hall : ∀ j (hj : j < objs.length),
        ∃ ej, decodeJobEntry (objs.get ⟨j, hj⟩) = .ok ej := by
      intro j hj
      by_cases hji : j = i
      · subst hji
        have hobj2 : objs.get ⟨j, hj⟩ = .obj ms := hobj
        rw [hobj2]
        exact ⟨_, hje⟩
      · exact ValidEntryObj_decodes (hrest j hj hji)
    obtain ⟨es, hes, hlen, hptw⟩ := decodeEntries_ok_idx objs hall
    refine ⟨⟨es⟩, ?_, hlen, ?_⟩
    · rw [decodeJobData, visitDataMap_once rms _ hc hv]
      have harr : decodeEntryList (.arr objs) = .ok es := by
        rw [decodeEntryList]; exact hes
      rw [harr]
    · intro hi2
      have hp := hptw i hi hi2
      have hobj2 : objs.get ⟨i, hi⟩ = .obj ms := hobj
      rw [hobj2, hje] at hp
      have hjeq : (⟨⟨n.toNat, by omega⟩, sn, sd, st, ss, sl⟩ : JobEntry) =
          es.get ⟨i, hi2⟩ := by injection hp
      rw [← hjeq]
      show ((n.toNat : ℕ) : Int) = n
      omega
  · rintro n rfl hr
    have hdec : decodeU32 (.num n) = .error (.invalidValue "u32") := by
      rw [decodeU32]
      exact dif_neg (by rintro ⟨ha, hb⟩; omega)
    obtain ⟨e2, he2, hdisj⟩ := visitEntryMap_fails ms none none none none none none
      (some (.invalidValue "u32")) none none none none none
      (Or.inl ⟨rfl, hcf, .num n, hvf, hdec⟩)
      (OkState_of_optStr (by decide) (GoodField_toOpt
        (hothers "name" (by simp [entryFieldNames]) (by decide))))
      (OkState_of_optStr (by decide) (GoodField_toOpt
        (hothers "details" (by simp [entryFieldNames]) (by decide))))
      (OkState_of_optStr (by decide) (GoodField_toOpt
        (hothers "tools" (by simp [entryFieldNames]) (by decide))))
      (OkState_of_optStr (by decide) (GoodField_toOpt
        (hothers "screen" (by simp [entryFieldNames]) (by decide))))
      (OkState_of_optStr (by decide) (GoodField_toOpt
        (hothers "link" (by simp [entryFieldNames]) (by decide))))
      (by simp)
    have he3 : e2 = .invalidValue "u32" := by
      rcases hdisj with h | h | h | h | h | h
      · injection h with h4; rw [h4]
      all_goals exact Option.noConfusion h
    exact decodeJobData_entry_err rms objs i hi hc hv
      (fun j hj hlt => ValidEntryObj_decodes (hrest j hj (by omega)))
      (by rw [hobj, decodeJobEntry, he2, he3])
  · intro hnum
    have hdec : decodeU32 v = .error (.invalidType "u32") := by
      cases v
      case num n => exact absurd rfl (hnum n)
      all_goals rfl
    obtain ⟨e2, he2, hdisj⟩ := visitEntryMap_fails ms none none none none none none
      (some (.invalidType "u32")) none none none none none
      (Or.inl ⟨rfl, hcf, v, hvf, hdec⟩)
      (OkState_of_optStr (by decide) (GoodField_toOpt
        (hothers "name" (by simp [entryFieldNames]) (by decide))))
      (OkState_of_optStr (by decide) (GoodField_toOpt
        (hothers "details" (by simp [entryFieldNames]) (by decide))))
      (OkState_of_optStr (by decide) (GoodField_toOpt
        (hothers "tools" (by simp [entryFieldNames]) (by decide))))
      (OkState_of_optStr (by decide) (GoodField_toOpt
        (hothers "screen" (by simp [entryFieldNames]) (by decide))))
      (OkState_of_optStr (by decide) (GoodField_toOpt
        (hothers "link" (by simp [entryFieldNames]) (by decide))))
      (by simp)
    have he3 : e2 = .invalidType "u32" := by
      rcases hdisj with h | h | h | h | h | h
      · injection h with h4; rw [h4]
      all_goals exact Option.noConfusion h
    exact decodeJobData_entry_err rms objs i hi hc hv
      (fun j hj hlt => ValidEntryObj_decodes (hrest j hj (by omega)))
      (by rw [hobj, decodeJobEntry, he2, he3])

/-- C4 witness: a single-entry payload whose key value is the number 7. -/
theorem claim4_key_range_witness :
    (∀ n : Int, Json.num 7 = .num n → 0 ≤ n → n < 4294967296 →
      ∃ d, decodeJobData (.obj [("entries", .arr [.obj
        [("key", .num 7), ("name", .str "a"), ("details", .str "b"),
         ("tools", .str "c"), ("screen", .str "d"), ("link", .str "e")]])]) = .ok d ∧
        d.entries.length = [Json.obj
          [("key", .num 7), ("name", .str "a"), ("details", .str "b"),
           ("tools", .str "c"), ("screen", .str "d"), ("link", .str "e")]].length ∧
        ∀ hi2 : 0 < d.entries.length, ((d.entries.get ⟨0, hi2⟩).key.val : Int) = n) ∧
    (∀ n : Int, Json.num 7 = .num n → (n < 0 ∨ 4294967296 ≤ n) →
      decodeJobData (.obj [("entries", .arr [.obj
        [("key", .num 7), ("name", .str "a"), ("details", .str "b"),
         ("tools", .str "c"), ("screen", .str "d"), ("link", .str "e")]])]) =
        .error (.invalidValue "u32")) ∧
    ((∀ n : Int, Json.num 7 ≠ .num n) →
      decodeJobData (.obj [("entries", .arr [.obj
        [("key", .num 7), ("name", .str "a"), ("details", .str "b"),
         ("tools", .str "c"), ("screen", .str "d"), ("link", .str "e")]])]) =
        .error (.invalidType "u32")) :=
  claim4_key_range _ _ 0 (by decide) _ (.num 7) rfl rfl rfl rfl rfl
    (by intro g hg hne
        fin_cases hg
        · exact absurd rfl hne
        · exact GoodField_str (by decide) rfl rfl
        · exact GoodField_str (by decide) rfl rfl
        · exact GoodField_str (by decide) rfl rfl
        · exact GoodField_str (by decide) rfl rfl
        · exact GoodField_str (by decide) rfl rfl)
    (by intro j hj hne
        have hj0 : j = 0 := by simpa using hj
        exact absurd hj0 hne)

/-- C10: the six members of an entry object are accepted in any order
(decoding to the viewed entry whenever each occurs exactly once with the
right kind), but a field occurring twice within one entry — first value
well kinded, rest of the payload well formed — makes the whole decode fail
with the duplicate-field error: neither first-wins nor last-wins. -/
theorem claim10_duplicate_rejected (rms : List (String × Json)) (objs : List Json)
    (i : ℕ) (hi : i < objs.length) (ms : List (String × Json)) (f : String)
    (v : Json)
    (hc : countField rms "entries" = 1)
    (hv : lookupField rms "entries" = some (.arr objs))
    (hobj : objs.get ⟨i, hi⟩ = .obj ms)
    (hf : f ∈ entryFieldNames)
    (hrest : ∀ j (hj : j < objs.length), j ≠ i → ValidEntryObj (objs.get ⟨j, hj⟩)) :
    (∀ e : JobEntry, (∀ g ∈ entryFieldNames, countField ms g = 1) →
      EntryView ms e → decodeJobEntry (.obj ms) = .ok e) ∧
    (countField ms f = 2 → lookupField ms f = some v → fieldOk f v →
      (∀ g ∈ entryFieldNames, g ≠ f →
        countField ms g ≤ 1 ∧ ∀ w, lookupField ms g = some w → fieldOk g w) →
      decodeJobData (.obj rms) = .error (.duplicateField f)) := by
  constructor
  · intro e hcnt hview
    exact decodeJobEntry_of_view ms e hcnt hview
  · intro hc2 hvf hok hothers
    have hentry : decodeJobEntry (.obj ms) = .error (.duplicateField f) := by
      simp only [entryFieldNames, List.mem_cons, List.not_mem_nil, or_false] at hf
      rcases hf with rfl | rfl | rfl | rfl | rfl | rfl
      · rw [fieldOk, if_pos rfl] at hok
        obtain ⟨x, hx⟩ := hok
        obtain ⟨e2, he2, hdisj⟩ := visitEntryMap_fails ms none none none none none none
          (some (.duplicateField "key")) none none none none none
          (Or.inr (Or.inl ⟨rfl, hc2, ⟨v, x, hvf, hx⟩, rfl⟩))
          (OkState_of_optStr (by decide) (hothers "name" (by simp [entryFieldNames]) (by decide)))
          (OkState_of_optStr (by decide) (hothers "details" (by simp [entryFieldNames]) (by decide)))
          (OkState_of_optStr (by decide) (hothers "tools" (by simp [entryFieldNames]) (by decide)))
          (OkState_of_optStr (by decide) (hothers "screen" (by simp [entryFieldNames]) (by decide)))
          (OkState_of_optStr (by decide) (hothers "link" (by simp [entryFieldNames]) (by decide)))
          (by simp)
        have he3 : e2 = .duplicateField "key" := by
          rcases hdisj with h | h | h | h | h | h
          · injection h with h4; rw [h4]
          all_goals exact Option.noConfusion h
        rw [decodeJobEntry, he2, he3]
      · rw [fieldOk, if_neg (by decide)] at hok
        obtain ⟨x, hx⟩ := hok
        obtain ⟨e2, he2, hdisj⟩ := visitEntryMap_fails ms none none none none none none
          none (some (.duplicateField "name")) none none none none
          (OkState_of_optKey (hothers "key" (by simp [entryFieldNames]) (by decide)))
          (Or.inr (Or.inl ⟨rfl, hc2, ⟨v, x, hvf, hx⟩, rfl⟩))
          (OkState_of_optStr (by decide) (hothers "details" (by simp [entryFieldNames]) (by decide)))
          (OkState_of_optStr (by decide) (hothers "tools" (by simp [entryFieldNames]) (by decide)))
          (OkState_of_optStr (by decide) (hothers "screen" (by simp [entryFieldNames]) (by decide)))
          (OkState_of_optStr (by decide) (hothers "link" (by simp [entryFieldNames]) (by decide)))
          (by simp)
        have he3 : e2 = .duplicateField "name" := by
          rcases hdisj with h | h | h | h | h | h
          · exact Option.noConfusion h
          · injection h with h4; rw [h4]
          all_goals exact Option.noConfusion h
        rw [decodeJobEntry, he2, he3]
      · rw [fieldOk, if_neg (by decide)] at hok
        obtain ⟨x, hx⟩ := hok
        obtain ⟨e2, he2, hdisj⟩ := visitEntryMap_fails ms none none none none none none
          none none (some (.duplicateField "details")) none none none
          (OkState_of_optKey (hothers "key" (by simp [entryFieldNames]) (by decide)))
          (OkState_of_optStr (by decide) (hothers "name" (by simp [entryFieldNames]) (by decide)))
          (Or.inr (Or.inl ⟨rfl, hc2, ⟨v, x, hvf, hx⟩, rfl⟩))
          (OkState_of_optStr (by decide) (hothers "tools" (by simp [entryFieldNames]) (by decide)))
          (OkState_of_optStr (by decide) (hothers "screen" (by simp [entryFieldNames]) (by decide)))
          (OkState_of_optStr (by decide) (hothers "link" (by simp [entryFieldNames]) (by decide)))
          (by simp)
        have he3 : e2 = .duplicateField "details" := by
          rcases hdisj with h | h | h | h | h | h
          · exact Option.noConfusion h
          · exact Option.noConfusion h
          · injection h with h4; rw [h4]
          all_goals exact Option.noConfusion h
        rw [decodeJobEntry, he2, he3]
      · rw [fieldOk, if_neg (by decide)] at hok
        obtain ⟨x, hx⟩ := hok
        obtain ⟨e2, he2, hdisj⟩ := visitEntryMap_fails ms none none none none none none
          none none none (some (.duplicateField "tools")) none none
          (OkState_of_optKey (hothers "key" (by simp [entryFieldNames]) (by decide)))
          (OkState_of_optStr (by decide) (hothers "name" (by simp [entryFieldNames]) (by decide)))
          (OkState_of_optStr (by decide) (hothers "details" (by simp [entryFieldNames]) (by decide)))
          (Or.inr (Or.inl ⟨rfl, hc2, ⟨v, x, hvf, hx⟩, rfl⟩))
          (OkState_of_optStr (by decide) (hothers "screen" (by simp [entryFieldNames]) (by decide)))
          (OkState_of_optStr (by decide) (hothers "link" (by simp [entryFieldNames]) (by decide)))
          (by simp)
        have he3 : e2 = .duplicateField "tools" := by
          rcases hdisj with h | h | h | h | h | h
          · exact Option.noConfusion h
          · exact Option.noConfusion h
          · exact Option.noConfusion h
          · injection h with h4; rw [h4]
          all_goals exact Option.noConfusion h
        rw [decodeJobEntry, he2, he3]
      · rw [fieldOk, if_neg (by decide)] at hok
        obtain ⟨x, hx⟩ := hok
        obtain ⟨e2, he2, hdisj⟩ := visitEntryMap_fails ms none none none none none none
          none none none none (some (.duplicateField "screen")) none
          (OkState_of_optKey (hothers "key" (by simp [entryFieldNames]) (by decide)))
          (OkState_of_optStr (by decide) (hothers "name" (by simp [entryFieldNames]) (by decide)))
          (OkState_of_optStr (by decide) (hothers "details" (by simp [entryFieldNames]) (by decide)))
          (OkState_of_optStr (by decide) (hothers "tools" (by simp [entryFieldNames]) (by decide)))
          (Or.inr (Or.inl ⟨rfl, hc2, ⟨v, x, hvf, hx⟩, rfl⟩))
          (OkState_of_optStr (by decide) (hothers "link" (by simp [entryFieldNames]) (by decide)))
          (by simp)
        have he3 : e2 = .duplicateField "screen" := by
          rcases hdisj with h | h | h | h | h | h
          · exact Option.noConfusion h
          · exact Option.noConfusion h
          · exact Option.noConfusion h
          · exact Option.noConfusion h
          · injection h with h4; rw [h4]
          · exact Option.noConfusion h
        rw [decodeJobEntry, he2, he3]
      · rw [fieldOk, if_neg (by decide)] at hok
        obtain ⟨x, hx⟩ := hok
        obtain ⟨e2, he2, hdisj⟩ := visitEntryMap_fails ms none none none none none none
          none none none none none (some (.duplicateField "link"))
          (OkState_of_optKey (hothers "key" (by simp [entryFieldNames]) (by decide)))
          (OkState_of_optStr (by decide) (hothers "name" (by simp [entryFieldNames]) (by decide)))
          (OkState_of_optStr (by decide) (hothers "details" (by simp [entryFieldNames]) (by decide)))
          (OkState_of_optStr (by decide) (hothers "tools" (by simp [entryFieldNames]) (by decide)))
          (OkState_of_optStr (by decide) (hothers "screen" (by simp [entryFieldNames]) (by decide)))
          (Or.inr (Or.inl ⟨rfl, hc2, ⟨v, x, hvf, hx⟩, rfl⟩))
          (by simp)
        have he3 : e2 = .duplicateField "link" := by
          rcases hdisj with h | h | h | h | h | h
          · exact Option.noConfusion h
          · exact Option.noConfusion h
          · exact Option.noConfusion h
          · exact Option.noConfusion h
          · exact Option.noConfusion h
          · injection h with h4; rw [h4]
        rw [decodeJobEntry, he2, he3]
    exact decodeJobData_entry_err rms objs i hi hc hv
      (fun j hj hlt => ValidEntryObj_decodes (hrest j hj (by omega)))
      (by rw [hobj]; exact hentry)

/-- C10 witness: an entry listing `name` twice is rejected with the
duplicate-field error for `name`. -/
theorem claim10_duplicate_rejected_witness :
    decodeJobData (.obj [("entries", .arr [.obj
      [("key", .num 1), ("name", .str "a"), ("name", .str "a2"),
       ("details", .str "b"), ("tools", .str "c"), ("screen", .str "d"),
       ("link", .str "e")]])]) = .error (.duplicateField "name") :=
  (claim10_duplicate_rejected [("entries", .arr [.obj
      [("key", .num 1), ("name", .str "a"), ("name", .str "a2"),
       ("details", .str "b"), ("tools", .str "c"), ("screen", .str "d"),
       ("link", .str "e")]])]
    [.obj [("key", .num 1), ("name", .str "a"), ("name", .str "a2"),
       ("details", .str "b"), ("tools", .str "c"), ("screen", .str "d"),
       ("link", .str "e")]]
    0 (by decide)
    [("key", .num 1), ("name", .str "a"), ("name", .str "a2"),
     ("details", .str "b"), ("tools", .str "c"), ("screen", .str "d"),
     ("link", .str "e")]
    "name" (.str "a") rfl rfl rfl
    (by simp [entryFieldNames])
    (by intro j hj hne
        have hj0 : j = 0 := by simpa using hj
        exact absurd hj0 hne)).2
    rfl rfl
    (by rw [fieldOk, if_neg (by decide)]; exact ⟨"a", rfl⟩)
    (by intro g hg hne
        fin_cases hg
        · exact GoodField_toOpt (GoodField_key rfl rfl (by decide) (by decide))
        · exact absurd rfl hne
        · exact GoodField_toOpt (GoodField_str (by decide) rfl rfl)
        · exact GoodField_toOpt (GoodField_str (by decide) rfl rfl)
        · exact GoodField_toOpt (GoodField_str (by decide) rfl rfl)
        · exact GoodField_toOpt (GoodField_str (by decide) rfl rfl))

/-- Drop every member of an entry object that is not one of the six
fields. -/
def stripEntryObj : Json → Json
  | .obj ms => .obj (ms.filter (fun p => decide (p.1 ∈ entryFieldNames)))
  | v => v

/-- Strip the entry objects inside an `entries` list. -/
def stripEntriesVal : Json → Json
  | .arr es => .arr (es.map stripEntryObj)
  | v => v

/-- Drop every root member other than `entries`, stripping its list. -/
def stripRoot (rms : List (String × Json)) : List (String × Json) :=
  rms.filterMap
    (fun p => if p.1 = "entries" then some (p.1, stripEntriesVal p.2) else none)

lemma countField_filter_mem (ms : List (String × Json)) (f : String)
    (hf : f ∈ entryFieldNames) :
    countField (ms.filter (fun p => decide (p.1 ∈ entryFieldNames))) f =
      countField ms f := by
  induction ms with
  | nil => rfl
  | cons p rest ih =>
    obtain ⟨g, w⟩ := p
    by_cases hg : g ∈ entryFieldNames
    · rw [List.filter_cons_of_pos (by simpa using hg), countField_cons,
        countField_cons, ih]
    · rw [List.filter_cons_of_neg (by simpa using hg), countField_cons,
        if_neg (fun h : g = f => hg (h ▸ hf)), ih]
      omega

lemma lookupField_filter_mem (ms : List (String × Json)) (f : String)
    (hf : f ∈ entryFieldNames) :
    lookupField (ms.filter (fun p => decide (p.1 ∈ entryFieldNames))) f =
      lookupField ms f := by
  induction ms with
  | nil => rfl
  | cons p rest ih =>
    obtain ⟨g, w⟩ := p
    by_cases hg : g ∈ entryFieldNames
    · rw [List.filter_cons_of_pos (by simpa using hg), lookupField_cons,
        lookupField_cons]
      by_cases hgf : g = f
      · rw [if_pos hgf, if_pos hgf]
      · rw [if_neg hgf, if_neg hgf, ih]
    · rw [List.filter_cons_of_neg (by simpa using hg), lookupField_cons,
        if_neg (fun h : g = f => hg (h ▸ hf)), ih]

lemma countField_stripRoot (rms : List (String × Json)) :
    countField (stripRoot rms) "entries" = countField rms "entries" := by
  induction rms with
  | nil => rfl
  | cons p rest ih =>
    obtain ⟨g, w⟩ := p
    by_cases hg : g = "entries"
    · subst hg
      have hstep : stripRoot (("entries", w) :: rest) =
          ("entries", stripEntriesVal w) :: stripRoot rest := by
        simp [stripRoot, List.filterMap_cons]
      rw [hstep, countField_cons, countField_cons, ih]
    · have hstep : stripRoot ((g, w) :: rest) = stripRoot rest := by
        simp [stripRoot, List.filterMap_cons, hg]
      rw [hstep, ih, countField_cons, if_neg hg]
      omega

lemma lookupField_stripRoot (rms : List (String × Json)) (v : Json)
    (hv : lookupField rms "entries" = some v) :
    lookupField (stripRoot rms) "entries" = some (stripEntriesVal v) := by
  induction rms with
  | nil => exact Option.noConfusion hv
  | cons p rest ih =>
    obtain ⟨g, w⟩ := p
    rw [lookupField_cons] at hv
    by_cases hg : g = "entries"
    · subst hg
      rw [if_pos rfl] at hv
      have hwv : w = v := by injection hv
      have hstep : stripRoot (("entries", w) :: rest) =
          ("entries", stripEntriesVal w) :: stripRoot rest := by
        simp [stripRoot, List.filterMap_cons]
      rw [hstep, lookupField_cons, if_pos rfl, hwv]
    · rw [if_neg hg] at hv
      have hstep : stripRoot ((g, w) :: rest) = stripRoot rest := by
        simp [stripRoot, List.filterMap_cons, hg]
      rw [hstep]
      exact ih hv

lemma decodeJobEntry_strip {o : Json} (h : ValidEntryObj o) :
    decodeJobEntry (stripEntryObj o) = decodeJobEntry o := by
  obtain ⟨ms, rfl, hcnt, e, hview⟩ := h
  have h1 : decodeJobEntry (.obj ms) = .ok e := decodeJobEntry_of_view ms e hcnt hview
  have h2 : decodeJobEntry
      (.obj (ms.filter (fun p => decide (p.1 ∈ entryFieldNames)))) = .ok e := by
    apply decodeJobEntry_of_view
    · intro f hf
      rw [countField_filter_mem ms f hf]
      exact hcnt f hf
    · obtain ⟨hk, hn, hd, ht, hs, hl⟩ := hview
      refine ⟨?_, ?_, ?_, ?_, ?_, ?_⟩
      · rw [lookupField_filter_mem ms "key" (by simp [entryFieldNames])]; exact hk
      · rw [lookupField_filter_mem ms "name" (by simp [entryFieldNames])]; exact hn
      · rw [lookupField_filter_mem ms "details" (by simp [entryFieldNames])]; exact hd
      · rw [lookupField_filter_mem ms "tools" (by simp [entryFieldNames])]; exact ht
      · rw [lookupField_filter_mem ms "screen" (by simp [entryFieldNames])]; exact hs
      · rw [lookupField_filter_mem ms "link" (by simp [entryFieldNames])]; exact hl
  rw [stripEntryObj, h2, h1]

lemma decodeEntries_strip (objs : List Json) (h : ∀ o ∈ objs, ValidEntryObj o) :
    decodeEntries (objs.map stripEntryObj) = decodeEntries objs := by
  induction objs with
  | nil => rfl
  | cons o rest ih =>
    have ho := decodeJobEntry_strip (h o (by simp))
    have ihr := ih (fun o2 ho2 => h o2 (by simp [ho2]))
    rw [List.map_cons, decodeEntries, decodeEntries, ho, ihr]

/-- C7: extraneous members — root members other than `entries`, entry
members beyond the six fields — are tolerated and ignored: a valid payload
decodes successfully and to the same collection as its stripped core, the
payload with every extraneous member removed. -/
theorem claim7_extraneous_ignored (rms : List (String × Json)) (objs : List Json)
    (hc : countField rms "entries" = 1)
    (hv : lookupField rms "entries" = some (.arr objs))
    (hval : ∀ o ∈ objs, ValidEntryObj o) :
    (∃ d, decodeJobData (.obj rms) = .ok d) ∧
    decodeJobData (.obj rms) = decodeJobData (.obj (stripRoot rms)) := by
  obtain ⟨es, hes, _, _⟩ := decodeEntries_ok (R := fun o e => True) objs
    (fun o ho => by
      obtain ⟨e, he⟩ := ValidEntryObj_decodes (hval o ho)
      exact ⟨e, he, trivial⟩)
  have hlhs : decodeJobData (.obj rms) = .ok ⟨es⟩ := by
    rw [decodeJobData, visitDataMap_once rms _ hc hv]
    have harr : decodeEntryList (.arr objs) = .ok es := by
      rw [decodeEntryList]; exact hes
    rw [harr]
  have hrhs : decodeJobData (.obj (stripRoot rms)) = .ok ⟨es⟩ := by
    have hc2 : countField (stripRoot rms) "entries" = 1 := by
      rw [countField_stripRoot]; exact hc
    have hv2 : lookupField (stripRoot rms) "entries" =
        some (.arr (objs.map stripEntryObj)) := by
      have hst := lookupField_stripRoot rms _ hv
      rwa [stripEntriesVal] at hst
    rw [decodeJobData, visitDataMap_once _ _ hc2 hv2]
    have harr : decodeEntryList (.arr (objs.map stripEntryObj)) = .ok es := by
      rw [decodeEntryList, decodeEntries_strip objs hval]; exact hes
    rw [harr]
  exact ⟨⟨⟨es⟩, hlhs⟩, by rw [hlhs, hrhs]⟩

/-- C7 witness: a root with an extra `version` member and an entry with an
extra `extra` member decode as if the extras were absent. -/
theorem claim7_extraneous_ignored_witness :
    (∃ d, decodeJobData (.obj [("version", .num 2), ("entries", .arr [.obj
      (welderMembers ++ [("extra", Json.null)])])]) = .ok d) ∧
    decodeJobData (.obj [("version", .num 2), ("entries", .arr [.obj
      (welderMembers ++ [("extra", Json.null)])])]) =
    decodeJobData (.obj (stripRoot [("version", .num 2), ("entries", .arr [.obj
      (welderMembers ++ [("extra", Json.null)])])])) :=
  claim7_extraneous_ignored
    [("version", .num 2), ("entries", .arr [.obj (welderMembers ++ [("extra", Json.null)])])]
    [.obj (welderMembers ++ [("extra", Json.null)])]
    rfl rfl
    (by intro o ho
        have ho2 : o = .obj (welderMembers ++ [("extra", Json.null)]) := by simpa using ho
        rw [ho2]
        exact ⟨welderMembers ++ [("extra", Json.null)], rfl,
          by intro f hf; fin_cases hf <;> rfl,
          welderEntry, rfl, rfl, rfl, rfl, rfl, rfl⟩)

end Models
